import Mathlib

/-!
# Verification of the task-automation server core

A shallow embedding, in Lean 4, of the core components of the task-automation
server (task executor iteration loop, user-input queue, git worktree manager,
streaming CLI client, planning-response parser), faithful to the Python source
in `app/services/` and `app/api/endpoints.py`.  External effects (filesystem,
git subprocesses, the agent CLI, the database) are modelled as explicit
environment parameters; the control flow, field updates and string handling of
the Python functions are translated directly.

Conventions:
* Python string truthiness (`if s:` on an optional string) is modelled by
  `optTruthy`.
* Machine-level details that no property here depends on (regex searching)
  are modelled by equivalent character-list scans, documented at each site.
* Timestamps (`datetime.utcnow()`) are modelled as integers (seconds); only
  their ordering and differences are ever used by the source.
-/

namespace TaskAutomation

/-! ## Character/string utilities (ASCII), used to model Python string ops -/

/-- ASCII lower-casing of one character (models `str.lower` on ASCII text). -/
def lowerChar (c : Char) : Char :=
  if 65 ≤ c.toNat ∧ c.toNat ≤ 90 then Char.ofNat (c.toNat + 32) else c

/-- ASCII upper-casing of one character (models `str.upper` on ASCII text). -/
def upperChar (c : Char) : Char :=
  if 97 ≤ c.toNat ∧ c.toNat ≤ 122 then Char.ofNat (c.toNat - 32) else c

def lowerList (l : List Char) : List Char := l.map lowerChar

def upperList (l : List Char) : List Char := l.map upperChar

/-- Whitespace as recognised by Python `str.strip` / regex `\s` (ASCII). -/
def isSpaceChar (c : Char) : Bool :=
  c = ' ' ∨ c = '\t' ∨ c = '\n' ∨ c = '\x0d' ∨ c = '\x0b' ∨ c = '\x0c'

/-- Python `str.strip()` on a character list. -/
def stripList (l : List Char) : List Char :=
  ((l.dropWhile isSpaceChar).reverse.dropWhile isSpaceChar).reverse

/-- Python `str.strip()` on a string. -/
def stripStr (s : String) : String := String.mk (stripList s.data)

/-- Index of the first occurrence of `needle` in `hay`, if any
(models the scan a `re.search` for a literal performs). -/
def findSubIdx (hay needle : List Char) : Option Nat :=
  match hay with
  | [] => if needle = [] then some 0 else none
  | _ :: t =>
      if needle.isPrefixOf hay then some 0
      else (findSubIdx t needle).map (· + 1)

/-- Python `needle in hay` substring test. -/
def containsSub (hay needle : String) : Bool :=
  (findSubIdx hay.data needle.data).isSome

/-- Python `s.replace(old, new)` for single-character `old`/`new`
(the source only replaces `"/"` and `" "`). -/
def replaceChar (l : List Char) (old new : Char) : List Char :=
  l.map (fun c => if c = old then new else c)

/-! ## User-input queue (`app/services/user_input_manager.py`) -/

/-- One entry of `task.user_input_queue`.  In the source each entry is a JSON
dict `{id, input, timestamp, status, sent_at?}`; `status` is a string
(`"pending"`/`"sent"`/`"processed"`). -/
structure QueueEntry where
  id : Nat
  input : String
  timestamp : Int
  status : String
  sentAt : Option Int
  deriving Repr, DecidableEq

/-- The 30-second duplicate window of `UserInputManager.add_user_input`
(lines 65–81): an entry blocks the new input when its timestamp is strictly
later than `now - 30` and its text equals the new text.  The entry's status is
NOT consulted. -/
def isRecentDuplicate (queue : List QueueEntry) (userInput : String) (now : Int) : Bool :=
  queue.any (fun e => decide (now - 30 < e.timestamp) && e.input == userInput)

/-- Source `UserInputManager.add_user_input` (queue effect): reject recent duplicates,
otherwise append a fresh `"pending"` entry.  Returns the new queue and the
boolean result of the call. -/
def addUserInput (queue : List QueueEntry) (userInput : String) (now : Int)
    (newId : Nat) : List QueueEntry × Bool :=
  if isRecentDuplicate queue userInput now then (queue, false)
  else (queue ++ [⟨newId, userInput, now, "pending", none⟩], true)

/-- Source `UserInputManager.get_next_pending_user_input`: the text of the first entry
with `status = "pending"`, if any. -/
def getNextPendingUserInput (queue : List QueueEntry) : Option String :=
  (queue.find? (fun e => e.status == "pending")).map (·.input)

/-- The per-entry update performed by `UserInputManager.mark_message_as_sent`:
an entry matching the text and still pending becomes `"sent"` with
`sent_at = now`. -/
def markEntry (userInput : String) (now : Int) (e : QueueEntry) : QueueEntry :=
  if e.input == userInput && e.status == "pending" then
    { e with status := "sent", sentAt := some now }
  else e

/-- Source `UserInputManager.mark_message_as_sent` (lines 244–279): the loop updates
EVERY pending entry whose text matches (there is no break), and the updated
queue is committed only when at least one entry matched.  Returns the new
queue and the boolean result. -/
def markMessageAsSent (queue : List QueueEntry) (userInput : String) (now : Int) :
    List QueueEntry × Bool :=
  let found := queue.any (fun e => e.input == userInput && e.status == "pending")
  if found then (queue.map (markEntry userInput now), true) else (queue, false)

/-! ## Python truthiness on optional strings -/

/-- Python truthiness of an optional string field (`if s:`): true iff present
and non-empty. -/
def optTruthy : Option String → Bool
  | some s => !(s == "")
  | none => false

/-- Python `a or b` for an optional string `a` with string fallback `b`. -/
def pyOr (a : Option String) (b : String) : String :=
  match a with
  | some s => if s = "" then b else s
  | none => b

/-! ## Planning-response parser
(`TaskExecutor._run_iteration_planning`, parsing section, lines 951–1006) -/

/-- The write-intent keywords of the fallback heuristic (line 1003). -/
def writeKeywords : List String :=
  ["create", "edit", "modify", "update", "write", "add", "delete", "change", "implement"]

/-- The fenced-block search `re.search(r'```planning\s*(.*?)\s*```', response,
DOTALL | IGNORECASE)` for a literal-delimited block: locate the first
case-insensitive occurrence of the opening fence, then (lazily) the next
closing fence; the group is whitespace-trimmed (the regex's edge `\s*` plus
the source's `.strip()`). `none` when either fence is absent. -/
def extractPlanningBlock (response : String) : Option String :=
  match findSubIdx (lowerList response.data) "```planning".data with
  | none => none
  | some i =>
      let after := response.data.drop (i + 11)
      match findSubIdx after "```".data with
      | none => none
      | some j => some (String.mk (stripList (after.take j)))

/-- Models `re.search(r'NEEDS_WRITE:\s*(YES|NO)', planning_text, IGNORECASE)`:
scan left to right for the tag followed by optional whitespace and a
`YES`/`NO` literal. -/
def findNeedsWrite : List Char → Option Bool
  | [] => none
  | c :: t =>
      if "needs_write:".data.isPrefixOf (lowerList (c :: t)) then
        let rest := ((c :: t).drop 12).dropWhile isSpaceChar
        if "yes".data.isPrefixOf (lowerList rest) then some true
        else if "no".data.isPrefixOf (lowerList rest) then some false
        else findNeedsWrite t
      else findNeedsWrite t

/-- The tag part of `re.search(r'WRITE_TARGETS?:\s*(.+)', ...)`: at a given
position, match `WRITE_TARGET`, a greedy optional `S`, then `:`; return the
remaining text. -/
def matchWriteTargetsAt (l : List Char) : Option (List Char) :=
  if "write_targets:".data.isPrefixOf (lowerList l) then some (l.drop 14)
  else if "write_target:".data.isPrefixOf (lowerList l) then some (l.drop 13)
  else none

/-- Left-to-right scan for the first `WRITE_TARGETS?:` tag. -/
def findWriteTargetsRest : List Char → Option (List Char)
  | [] => none
  | c :: t =>
      match matchWriteTargetsAt (c :: t) with
      | some rest => some rest
      | none => findWriteTargetsRest t

/-- The capture `\s*(.+)` of the `WRITE_TARGETS` regex followed by the
source's `.strip()`: skip whitespace (`\s*` may cross newlines), take the
rest of the line, fail when empty.  (When the remainder is whitespace-only
the regex backtracks into the blanks and the subsequent `.strip()` yields
`""`, which falls through every branch exactly like the `none` case here.) -/
def captureRestOfLine (l : List Char) : Option (List Char) :=
  let l' := l.dropWhile isSpaceChar
  let line := l'.takeWhile (fun c => !(c == '\n'))
  if line = [] then none else some (stripList line)

/-- Models `re.findall(r'\d+', s)`: maximal digit runs, left to right.  The second
argument accumulates the current run (reversed). -/
def digitRunsAux : List Char → List Char → List (List Char)
  | [], cur => if cur = [] then [] else [cur.reverse]
  | c :: t, cur =>
      if c.isDigit then digitRunsAux t (c :: cur)
      else if cur = [] then digitRunsAux t []
      else cur.reverse :: digitRunsAux t []

/-- Python `int` on a digit run. -/
def natOfDigits (l : List Char) : Nat :=
  l.foldl (fun n c => n * 10 + (c.toNat - 48)) 0

/-- One step of the number-mapping loop of lines 989–999: a number `num`
with `1 ≤ num ≤ len(projects)` (i.e. `num in projects_lookup`) contributes
`projects[num-1]` when that path is non-empty and not already collected;
an unknown number is ignored (warning only). -/
def collectStep (projects : List String) (acc : List String × List Nat)
    (num : Nat) : List String × List Nat :=
  if 1 ≤ num ∧ num ≤ projects.length then
    let path := projects.getD (num - 1) ""
    if path ≠ "" ∧ ¬ acc.1.contains path then (acc.1 ++ [path], acc.2 ++ [num])
    else acc
  else acc

/-- The number-mapping loop of lines 989–999.  Returns
`(write_targets, write_target_nums)`. -/
def collectTargets (projects : List String) (nums : List Nat) :
    List String × List Nat :=
  nums.foldl (collectStep projects) ([], [])

structure PlanningResult where
  needsWrite : Bool
  writeTargets : List String
  deriving Repr, DecidableEq

/-- The parsing section of `_run_iteration_planning` (lines 951–1006):
with a ```planning``` block, read `NEEDS_WRITE` and branch on the
`WRITE_TARGETS` string (`NONE` / `CURRENT`-with-worktree / numbers);
without a block, fall back to the keyword heuristic against
`task.root_folder or project_path`. -/
def parsePlanningResponse (response : String) (projects : List String)
    (worktreePath rootFolder : Option String) (projectPath : String) :
    PlanningResult :=
  match extractPlanningBlock response with
  | some planningText =>
      let needsWrite := (findNeedsWrite planningText.data).getD false
      let writeTargets :=
        match findWriteTargetsRest planningText.data with
        | some rest =>
            match captureRestOfLine rest with
            | some targetChars =>
                if String.mk (upperList targetChars) = "NONE" then []
                else if String.mk (upperList targetChars) = "CURRENT"
                    ∧ optTruthy worktreePath then
                  [worktreePath.getD ""]
                else
                  (collectTargets projects
                    ((digitRunsAux targetChars []).map natOfDigits)).1
            | none => []
        | none => []
      ⟨needsWrite, writeTargets⟩
  | none =>
      let lower := String.mk (lowerList response.data)
      let needsWrite := writeKeywords.any (fun kw => containsSub lower kw)
      ⟨needsWrite, if needsWrite then [pyOr rootFolder projectPath] else []⟩

/-! ## Git worktree manager (`app/services/git_worktree.py`)

Filesystem and git state are snapshots supplied by the caller: `FsEnv` says
which paths exist, and `GitRepoEnv` describes one base repository (whether it
is a git repo, its `git worktree list` output, its current branch, and whether
the two `git worktree add` invocations the source may run would succeed). -/

structure FsEnv where
  pathExists : String → Bool

structure WorktreeInfo where
  path : String
  branch : String
  deriving Repr, DecidableEq

structure GitRepoEnv where
  isGitRepo : Bool
  worktrees : List WorktreeInfo
  currentBranch : Option String
  /-- Whether `git worktree add -b <branch> <path> <start>` succeeds. -/
  addNewBranchOk : Bool
  /-- fallback `git worktree add <path> <branch>` succeeds. -/
  addExistingOk : Bool
  /-- stderr text of a failing add. -/
  addStderr : String

/-- Source `task_name.replace("/", "_").replace(" ", "_")` (lines 42, 182, …). -/
def sanitizeTaskName (name : String) : String :=
  String.mk (replaceChar (replaceChar name.data '/' '_') ' ' '_')

/-- Models `os.path.join(self.worktrees_dir, safe_task_name)` with
`worktrees_dir = os.path.join(base_repo_path, ".claude_worktrees")`. -/
def worktreeTarget (baseRepoPath taskName : String) : String :=
  baseRepoPath ++ "/.claude_worktrees/" ++ sanitizeTaskName taskName

/-- The reuse scan of lines 62–68: the first listed worktree whose branch
ends in `/<branch_name>` or equals `refs/heads/<branch_name>` and whose path
is non-empty and exists. -/
def findBranchReuse (fs : FsEnv) (repo : GitRepoEnv) (branchName : String) :
    Option WorktreeInfo :=
  repo.worktrees.find? (fun wt =>
    (("/" ++ branchName).data.isSuffixOf wt.branch.data
        || wt.branch == "refs/heads/" ++ branchName)
      && !(wt.path == "") && fs.pathExists wt.path)

/-- Source `GitWorktreeManager.create_worktree` (lines 21–122), as
`(success, worktree_path, message)`.  Subprocess outcomes are read from the
`GitRepoEnv` snapshot; the stale-directory `rmtree` is a filesystem effect
with no bearing on the returned triple. -/
def create_worktree (fs : FsEnv) (repo : GitRepoEnv)
    (baseRepoPath taskName : String)
    (branchName baseBranch : Option String) : Bool × String × String :=
  if !repo.isGitRepo then (false, "", "Not a git repository")
  else
    let worktreePath := worktreeTarget baseRepoPath taskName
    if fs.pathExists worktreePath
        && repo.worktrees.any (fun wt => wt.path == worktreePath) then
      -- target exists and is a registered worktree (lines 46–52)
      (false, worktreePath, "Worktree already exists at " ++ worktreePath)
    else
      -- fresh creation (a stale directory was removed first when present)
      if optTruthy branchName then
        let b := branchName.getD ""
        match findBranchReuse fs repo b with
        | some wt =>
            (true, wt.path,
              "Reusing existing worktree at " ++ wt.path ++ " for branch '" ++ b ++ "'")
        | none =>
            if repo.addNewBranchOk || repo.addExistingOk then
              (true, worktreePath,
                "Created worktree for branch '" ++ b ++ "' from '"
                  ++ pyOr baseBranch "HEAD" ++ "'")
            else (false, "", "Failed to create worktree: " ++ repo.addStderr)
      else
        let base := pyOr baseBranch (pyOr repo.currentBranch "main")
        let taskBranch := "task/" ++ sanitizeTaskName taskName
        if repo.addNewBranchOk then
          (true, worktreePath,
            "Created worktree for branch '" ++ taskBranch ++ "' from '" ++ base ++ "'")
        else (false, "", "Failed to create worktree: " ++ repo.addStderr)

/-! ## Multi-project worktree creation
(`GitWorktreeManager.create_multi_project_worktrees`, lines 124–212) -/

structure ProjectCfg where
  path : String
  access : String
  projectType : String
  branchName : Option String
  baseBranch : Option String
  deriving Repr, DecidableEq

/-- Python dict assignment `d[k] = v` on an insertion-ordered association
list. -/
def dictInsert (d : List (String × String)) (k v : String) :
    List (String × String) :=
  if d.any (fun p => p.1 == k) then
    d.map (fun p => if p.1 == k then (k, v) else p)
  else d ++ [(k, v)]

/-- Accumulator of the write-projects loop: overall success flag and the
`project_worktree_paths` dict. -/
def multiStep (fs : FsEnv) (repoOf : String → GitRepoEnv) (taskName : String)
    (baseBranch : Option String) (acc : Bool × List (String × String))
    (project : ProjectCfg) : Bool × List (String × String) :=
  if project.path = "" then acc          -- missing path: message only
  else if project.projectType = "idl" then
    (acc.1, dictInsert acc.2 project.path project.path)
  else if !(repoOf project.path).isGitRepo then
    (acc.1, dictInsert acc.2 project.path project.path)
  else
    let projectBranch :=
      if optTruthy project.branchName then project.branchName.getD ""
      else "task/" ++ sanitizeTaskName taskName
    let projectBase :=
      match project.baseBranch with
      | some b => some b
      | none => baseBranch
    let r := create_worktree fs (repoOf project.path) project.path taskName
        (some projectBranch) projectBase
    if r.1 then (acc.1, dictInsert acc.2 project.path r.2.1)
    else (false, dictInsert acc.2 project.path project.path)

/-- Source `create_multi_project_worktrees` (messages elided: the claims under
verification do not inspect the combined message).  Returns
`(success, project_worktree_paths)`. -/
def create_multi_project_worktrees (fs : FsEnv) (repoOf : String → GitRepoEnv)
    (taskName : String) (projects : List ProjectCfg)
    (baseBranch : Option String) : Bool × List (String × String) :=
  let writeProjects := projects.filter (fun p => p.access == "write")
  if writeProjects = [] then (true, [])
  else
    let res := writeProjects.foldl (multiStep fs repoOf taskName baseBranch) (true, [])
    let dict := (projects.filter (fun p => p.access == "read")).foldl
      (fun d p => if p.path = "" then d else dictInsert d p.path p.path) res.2
    (res.1, dict)

/-! ## `TaskExecutor._ensure_worktree_for_target` (lines 1076–1136) -/

/-- The task fields `_ensure_worktree_for_target` reads. -/
structure TaskCfg where
  taskName : String
  branchName : Option String
  baseBranch : Option String
  /-- result of `_get_project_type_for_path(task, write_target)`
  (a lookup in the task's projects configuration). -/
  projectTypeOf : String → Option String

/-- Source `_ensure_worktree_for_target`: returns the worktree path when creation
succeeds, the original target path otherwise (non-existent, IDL, non-git, or
failed creation). -/
def ensure_worktree_for_target (fs : FsEnv) (repoOf : String → GitRepoEnv)
    (task : TaskCfg) (writeTarget : String) : String :=
  if writeTarget = "" || !fs.pathExists writeTarget then
    (if writeTarget = "" then "." else writeTarget)
  else if task.projectTypeOf writeTarget == some "idl" then writeTarget
  else if !fs.pathExists (writeTarget ++ "/.git") then writeTarget
  else
    let branchName := pyOr task.branchName ("task/" ++ task.taskName)
    let baseBranch := pyOr task.baseBranch "main"
    let r := create_worktree fs (repoOf writeTarget) writeTarget task.taskName
        (some branchName) (some baseBranch)
    if r.1 && !(r.2.1 == "") then r.2.1 else writeTarget

/-! ## Streaming CLI client, process-exit handling
(`StreamingCLIClient.send_message_streaming`, lines 183–211) -/

/-- The outcome of the subprocess-exit section: either a returned output
string or a raised exception carrying a message. -/
inductive CLIResult where
  | ok (output : String)
  | error (message : String)
  deriving Repr, DecidableEq

/-- The recoverable stderr signature tested on line 192. -/
def chunkLimitSig : String := "Separator is found, but chunk is longer than limit"

/-- The substitute output of line 197. -/
def truncationNotice : String :=
  "⚠️ Output truncated due to size limit. Please continue with a follow-up message."

/-- Lines 183–211 of `send_message_streaming`: after the stream ends,
`full_text` has been accumulated and the process has exited with
`returncode`; on a nonzero exit the stderr is read and the chunk-limit
signature decides between returning the (possibly substituted) partial
output and raising. -/
def finishStreaming (fullText : String) (returncode : Int) (stderr : String) :
    CLIResult :=
  if returncode ≠ 0 then
    if containsSub stderr chunkLimitSig then
      let fullOutput := stripStr fullText
      CLIResult.ok (if fullOutput = "" then truncationNotice else fullOutput)
    else
      CLIResult.error
        ("Claude CLI error (exit code " ++ toString returncode ++ "): " ++ stderr)
  else CLIResult.ok (stripStr fullText)

/-! ## Task executor (`app/services/task_executor.py`, `_execute_with_claude`)

The iteration loop is embedded as a step function on an explicit task state.
External collaborators are supplied through `ExecEnv`:

* the agent CLI (planning / execution / initial-context / test-generation
  responses, token usage, failures) — the driver itself is modelled by
  `finishStreaming` above, and the loop sees its outcome through
  `execRaises`/`execResponse`;
* the filesystem (`pathExists`; `send_message_streaming` raises
  `ValueError("Working directory not found: …")` before creating a process
  when the requested cwd does not exist, client lines 102–108);
* the intelligent responder, criteria analyzer and summary extractor
  (opaque services per the source architecture);
* `_ensure_worktree_for_target`, abstracted to its returned path
  (`ensureWorktree`) — the function itself is verified separately above;
* concurrent stop requests (`stopRequested`), observed by `db.refresh` at the
  top of each iteration.

Each subprocess spawn is recorded as a `SpawnEvent`; the agent is modelled as
returning a fresh session id on every spawn (the spawn counter), which the
source adopts via `if session_id: task.claude_session_id = session_id`. -/

inductive TaskStatus where
  | PENDING | RUNNING | PAUSED | STOPPED | TESTING
  | COMPLETED | FAILED | FINISHED | EXHAUSTED
  deriving Repr, DecidableEq

inductive InteractionType where
  | USER_REQUEST | SYSTEM_MESSAGE | CLAUDE_RESPONSE | TOOL_RESULT | SIMULATED_HUMAN
  deriving Repr, DecidableEq

structure Interaction where
  itype : InteractionType
  content : String
  deriving Repr, DecidableEq

inductive SpawnPhase where
  | initialContext | planning | execution | testGeneration | immediate
  deriving Repr, DecidableEq

/-- One agent-CLI subprocess spawn.  `cwd = none` means no working directory
was passed (the subprocess runs in the server process's directory).
`sessionPassed` is the `-r` session id; `sessionProduced` the id the stream's
`system/init` event reports back. -/
structure SpawnEvent where
  phase : SpawnPhase
  cwd : Option String
  sessionPassed : Option Nat
  sessionProduced : Nat
  pid : Nat
  message : String
  deriving Repr, DecidableEq

/-- The task row plus the executor's local variables, and (ghost) the list of
spawns performed so far. -/
structure ExecState where
  status : TaskStatus
  chatMode : Bool
  totalTokensUsed : Nat
  processPid : Option Nat
  claudeSessionId : Option Nat
  worktreePath : Option String
  currentProjectPath : String
  branchName : Option String
  rootFolder : Option String
  projects : List String
  errorMessage : Option String
  summary : Option String
  queue : List QueueEntry
  interactions : List Interaction
  spawnCounter : Nat
  trace : List SpawnEvent
  deriving Repr, DecidableEq

structure ExecEnv where
  maxIterations : Nat
  maxTokens : Option Nat
  criteria : Option String
  pathExists : String → Bool
  stopRequested : Nat → Bool
  planningResponse : Nat → String
  execResponse : Nat → String
  /-- when `some msg`, `_execute_iteration` raises with message `msg` at this
  iteration (e.g. the re-raised `finishStreaming` error). -/
  execRaises : Nat → Option String
  /-- output tokens reported by spawn number `k`. -/
  tokensOf : Nat → Nat
  criteriaMet : Nat → Bool
  criteriaReason : Nat → String
  shouldContinue : String → Nat → Bool
  generateResponse : String → Nat → String
  /-- result path of `_ensure_worktree_for_target` for a write target. -/
  ensureWorktree : String → String
  initialResponse : String
  testGenResponse : String
  allTestsPassed : Bool
  /-- the `_extract_summary` text heuristic, abstracted (no claim reads the
  summary text). -/
  extractSummary : String → String
  now : Nat → Int

/-- Appends to the interaction log (`_save_interaction` + commit). -/
def addInteraction (st : ExecState) (k : InteractionType) (content : String) :
    ExecState :=
  { st with interactions := st.interactions ++ [⟨k, content⟩] }

/-- Performs a subprocess spawn: the session id passed is always the task's
current `claude_session_id`; a fresh session id and pid (the spawn counter)
come back. -/
def recordSpawn (st : ExecState) (phase : SpawnPhase) (cwd : Option String)
    (msg : String) : ExecState × SpawnEvent :=
  let e : SpawnEvent :=
    ⟨phase, cwd, st.claudeSessionId, st.spawnCounter, st.spawnCounter, msg⟩
  ({ st with spawnCounter := st.spawnCounter + 1, trace := st.trace ++ [e] }, e)

/-- After a successful spawn the source stores the returned session id and
pid (`if session_id: task.claude_session_id = session_id`;
`task.process_pid = pid`). -/
def adoptSpawn (st : ExecState) (e : SpawnEvent) : ExecState :=
  { st with claudeSessionId := some e.sessionProduced, processPid := some e.pid }

/-- Source `TaskExecutor._send_initial_context` (lines 456–547): log the
context as a SYSTEM_MESSAGE, spawn the agent in `projectPath` with the
current session id, adopt session/pid, log the response and add its tokens.
Any exception (in particular a missing working directory) is swallowed
(lines 544–547). -/
def sendInitialContext (env : ExecEnv) (st : ExecState) (projectPath : String) :
    ExecState :=
  let st := addInteraction st .SYSTEM_MESSAGE "[initial context]"
  if env.pathExists projectPath then
    let (st1, e) := recordSpawn st .initialContext (some projectPath) "[initial context]"
    let st1 := adoptSpawn st1 e
    let st1 := addInteraction st1 .CLAUDE_RESPONSE env.initialResponse
    { st1 with totalTokensUsed := st1.totalTokensUsed + env.tokensOf e.sessionProduced }
  else st

/-- Source `TaskExecutor._run_iteration_planning` (lines 790–1030): log the
planning prompt, spawn the agent in the current project path with the current
session id, adopt session/pid, log and account the response, and parse it
with `parsePlanningResponse`.  An exception (missing cwd) yields the
fail-safe fallback of lines 1020–1030. -/
def planningPhase (env : ExecEnv) (iteration : Nat) (st : ExecState) :
    ExecState × PlanningResult :=
  let st := addInteraction st .SYSTEM_MESSAGE "[planning prompt]"
  if env.pathExists st.currentProjectPath then
    let (st1, e) := recordSpawn st .planning (some st.currentProjectPath) "[planning prompt]"
    let st1 := adoptSpawn st1 e
    let resp := env.planningResponse iteration
    let st1 := addInteraction st1 .CLAUDE_RESPONSE resp
    let st1 := { st1 with totalTokensUsed := st1.totalTokensUsed + env.tokensOf e.sessionProduced }
    (st1, parsePlanningResponse resp st1.projects st1.worktreePath st1.rootFolder
        st1.currentProjectPath)
  else
    let v := pyOr st.rootFolder st.currentProjectPath
    (st, ⟨true, if v = "" then [] else [v]⟩)

/-- The worktree-info SYSTEM_MESSAGE of lines 310–319. -/
def worktreeInfoMsg (wtPaths : List String) (branchName : Option String) : String :=
  let b := pyOr branchName "task branch"
  match wtPaths with
  | [p] =>
      "Worktree created at: " ++ p ++ "\nBranch: " ++ b
        ++ "\nAll file changes should be made in the worktree directory."
  | _ =>
      "Worktrees created for " ++ toString wtPaths.length ++ " repositories:\n"
        ++ String.intercalate "\n" (wtPaths.map (fun p => "  - " ++ p))
        ++ "\nBranch: " ++ b
        ++ "\nAll file changes should be made in the worktree directories."

/-- PHASE 2 of the loop (lines 261–330): worktree provisioning for all write
targets; when this produced paths and `task.worktree_path` was unset, adopt
the first path as primary, clear the session id and re-send the initial
context in it; then compose the continue prompt. -/
def worktreePhase (env : ExecEnv) (st : ExecState) (plan : PlanningResult)
    (userMessage : String) : ExecState × String :=
  let wtPaths :=
    if plan.needsWrite && !plan.writeTargets.isEmpty then
      (plan.writeTargets.map env.ensureWorktree).filter (fun p => !(p == ""))
    else []
  let st :=
    if !wtPaths.isEmpty && !optTruthy st.worktreePath then
      let head := wtPaths.headD ""
      let st := { st with worktreePath := some head, currentProjectPath := head,
                          claudeSessionId := none }
      sendInitialContext env st head
    else st
  if plan.needsWrite && !wtPaths.isEmpty then
    let info := worktreeInfoMsg wtPaths st.branchName
    let st := addInteraction st .SYSTEM_MESSAGE info
    (st, info ++ "\n\nNow proceed with the original request:\n" ++ userMessage)
  else (st, userMessage)

inductive IterExit where
  | brk | cont
  deriving Repr, DecidableEq

/-- The except-handler of lines 415–429: a chunk-limit message is recoverable
(`continue`); anything else sets FAILED and breaks. -/
def applyError (st : ExecState) (msg : String) : ExecState × IterExit :=
  if containsSub msg chunkLimitSig then
    ({ st with errorMessage := some ("Error during execution: " ++ msg) }, .cont)
  else
    ({ st with errorMessage := some ("Error during execution: " ++ msg),
               status := .FAILED }, .brk)

/-- Line 222's guard `if max_tokens and task.total_tokens_used >= max_tokens`
(Python truthiness: a configured limit of 0 disables the check). -/
def tokenCapReached (env : ExecEnv) (st : ExecState) : Bool :=
  match env.maxTokens with
  | some m => !(m == 0) && decide (m ≤ st.totalTokensUsed)
  | none => false

/-- PHASE 4, the decision phase (lines 358–413): criteria check (work mode
only), then priority user input, then chat-mode pause, then the intelligent
responder (stop, or generate a SIMULATED_HUMAN continuation). -/
def decisionPhase (env : ExecEnv) (iteration : Nat) (st : ExecState)
    (lastResponse : String) : ExecState × IterExit :=
  let endingCriteria := if st.chatMode then none else env.criteria
  if optTruthy endingCriteria && env.criteriaMet iteration then
    ({ st with
        summary := some ("Task completed - Criteria met: " ++ env.criteriaReason iteration),
        status := .FINISHED }, .brk)
  else
    match getNextPendingUserInput st.queue with
    | some pi =>
        let st := { st with queue := (markMessageAsSent st.queue pi (env.now iteration)).1 }
        let st := addInteraction st .USER_REQUEST pi
        (st, .cont)
    | none =>
        if st.chatMode then ({ st with status := .PAUSED }, .brk)
        else if !env.shouldContinue lastResponse iteration then
          ({ st with summary := some (env.extractSummary lastResponse) }, .brk)
        else
          let gen := env.generateResponse lastResponse iteration
          (addInteraction st .SIMULATED_HUMAN gen, .cont)

/-- One iteration of the chat loop (lines 211–429): refresh/stop check, token
cap, message acquisition from the pending queue (note: the `user_message`
local is reset to `None` at line 229 of every iteration, so nothing carries
over from the previous iteration's decision phase), then
planning → worktrees → execution → decision inside the try block. -/
def iterBody (env : ExecEnv) (iteration : Nat) (st : ExecState) :
    ExecState × IterExit :=
  let st := if env.stopRequested iteration then { st with status := .STOPPED } else st
  if st.status = .STOPPED then (st, .brk)
  else if tokenCapReached env st then
    ({ st with
        status := .EXHAUSTED,
        errorMessage := some ("Max tokens limit reached: "
          ++ toString st.totalTokensUsed ++ "/"
          ++ toString (env.maxTokens.getD 0) ++ " tokens used") }, .brk)
  else
    match getNextPendingUserInput st.queue with
    | none => (st, .brk)      -- chat mode: wait for input; work mode: "no more input"
    | some userMessage =>
        let st := { st with queue := (markMessageAsSent st.queue userMessage (env.now iteration)).1 }
        let st := addInteraction st .USER_REQUEST userMessage
        let (st, plan) := planningPhase env iteration st
        let (st, continuePrompt) := worktreePhase env st plan userMessage
        let st := { st with status := .RUNNING }   -- `_execute_iteration`, line 564
        let executionPath := pyOr st.worktreePath st.currentProjectPath
        if !env.pathExists executionPath then
          applyError st ("Working directory not found: " ++ executionPath)
        else
          match env.execRaises iteration with
          | some msg =>
              -- the subprocess ran and the client raised after `process.wait()`
              let (st1, _) := recordSpawn st .execution (some executionPath) continuePrompt
              applyError st1 msg
          | none =>
              let (st1, e) := recordSpawn st .execution (some executionPath) continuePrompt
              let st1 := adoptSpawn st1 e
              let resp := env.execResponse iteration
              let st1 := addInteraction st1 .CLAUDE_RESPONSE resp
              let st1 := { st1 with
                totalTokensUsed := st1.totalTokensUsed + env.tokensOf e.sessionProduced }
              decisionPhase env iteration st1 resp

/-- Lines 211–212: `while iteration < max_iterations` with `iteration += 1`
at the top; the fuel argument (`env.maxIterations` at the entry point) bounds
the recursion.  Returns the state at loop exit and the final iteration
count. -/
def execLoop (env : ExecEnv) : Nat → Nat → ExecState → ExecState × Nat
  | 0, iteration, st => (st, iteration)
  | Nat.succ fuel, iteration, st =>
      if iteration < env.maxIterations then
        match iterBody env (iteration + 1) st with
        | (st', .brk) => (st', iteration + 1)
        | (st', .cont) => execLoop env fuel (iteration + 1) st'
      else (st, iteration)

/-- The last CLAUDE_RESPONSE interaction, as queried on lines 444–449. -/
def lastClaudeResponse (l : List Interaction) : Option String :=
  ((l.filter (fun i => i.itype == InteractionType.CLAUDE_RESPONSE)).getLast?).map
    (·.content)

/-- Source `TaskExecutor._generate_and_run_tests` (lines 1651–1746): sets
TESTING, spawns the agent once more for test generation with session
continuity (adopting session/pid), then COMPLETED or FAILED according to the
test results; an exception (missing cwd) sets FAILED. -/
def generateAndRunTests (env : ExecEnv) (st : ExecState) (projectPath : String) :
    ExecState :=
  let st := { st with status := .TESTING }
  if env.pathExists projectPath then
    let (st1, e) := recordSpawn st .testGeneration (some projectPath)
        "[test generation prompt]"
    let st1 := adoptSpawn st1 e
    let st1 := addInteraction st1 .CLAUDE_RESPONSE env.testGenResponse
    if env.allTestsPassed then { st1 with status := .COMPLETED }
    else { st1 with status := .FAILED, errorMessage := some "Some tests failed" }
  else
    { st with
        status := .FAILED,
        errorMessage := some ("Error during testing: Working directory not found: "
          ++ projectPath) }

/-- Post-loop processing (lines 431–454): iteration-cap EXHAUSTED, chat-mode
PAUSED, summary derivation, and the test phase for non-chat tasks whose
status is FINISHED, COMPLETED or EXHAUSTED. -/
def postLoop (env : ExecEnv) (st : ExecState) (iteration : Nat) : ExecState :=
  let st :=
    if env.maxIterations ≤ iteration && st.status == TaskStatus.RUNNING then
      { st with
          status := .EXHAUSTED,
          errorMessage := some ("Max iterations reached: " ++ toString iteration
            ++ "/" ++ toString env.maxIterations) }
    else if st.chatMode && st.status == TaskStatus.RUNNING then
      { st with status := .PAUSED }
    else st
  let st :=
    if !optTruthy st.summary then
      match lastClaudeResponse st.interactions with
      | some r => { st with summary := some (env.extractSummary r) }
      | none => st
    else st
  if !st.chatMode
      && (st.status == TaskStatus.FINISHED || st.status == TaskStatus.COMPLETED
          || st.status == TaskStatus.EXHAUSTED) then
    generateAndRunTests env st st.currentProjectPath
  else st

/-- Source `TaskExecutor._execute_with_claude` (lines 152–454): adopt an
existing worktree as the working path when it exists (line 190), send the
initial context on a first run (empty interaction log), run the loop, then
the post-loop processing. -/
def executeWithClaude (env : ExecEnv) (st0 : ExecState) (projectPath : String) :
    ExecState :=
  let current :=
    match st0.worktreePath with
    | some w => if !(w == "") && env.pathExists w then w else projectPath
    | none => projectPath
  let st := { st0 with currentProjectPath := current }
  let st := if st.interactions.length = 0 then sendInitialContext env st current else st
  let (st, iteration) := execLoop env env.maxIterations 0 st
  postLoop env st iteration

/-- Source `TaskExecutor.execute_task` (lines 50–100): set RUNNING and run
`_execute_with_claude` with the resolved initial project path. -/
def executeTask (env : ExecEnv) (st0 : ExecState) (projectPath : String) :
    ExecState :=
  executeWithClaude env { st0 with status := .RUNNING } projectPath

/-! ## Immediate-interrupt processing
(`UserInputManager.trigger_immediate_processing`, lines 406–574) -/

/-- Source `trigger_immediate_processing`, foreground part: when the task is
RUNNING, save the USER_REQUEST interaction, mark the message sent, and spawn
the agent with the task's stored `claude_session_id` — passing NO
`project_path` (client line 110: "executing in current directory"), so the
spawn's cwd is the server process's directory (`cwd = none`).  The
background response handling and session-rejection retry are asynchronous
and not modelled. -/
def triggerImmediateProcessing (st : ExecState) (userInput : String) (now : Int) :
    ExecState :=
  if !(st.status == TaskStatus.RUNNING) then st
  else
    let st := addInteraction st .USER_REQUEST userInput
    let st := { st with queue := (markMessageAsSent st.queue userInput now).1 }
    (recordSpawn st .immediate none userInput).1

/-! ## Stop endpoint (`app/api/endpoints.py`, `stop_task`, lines 540–719) -/

/-- Source `stop_task`, task-row effect: rejected (HTTP 400 → `none`) unless
RUNNING/PAUSED/TESTING; otherwise — after killing the subprocess tree and
cleaning up worktrees — sets STOPPED and clears `process_pid`
(lines 702–704). -/
def stopTask (st : ExecState) : Option ExecState :=
  if st.status == TaskStatus.RUNNING || st.status == TaskStatus.PAUSED
      || st.status == TaskStatus.TESTING then
    some { st with status := .STOPPED, processPid := none }
  else none

/-! ## The session/cwd invariant over spawn traces -/

/-- The cwd of the spawn that produced session `s` (if any). -/
def producedCwd (trace : List SpawnEvent) (s : Nat) : Option (Option String) :=
  (trace.find? (fun e => e.sessionProduced == s)).map (·.cwd)

/-- Claim property for one spawn: it passed no session id, or it ran in the
cwd of the spawn that produced the id it passed. -/
def spawnSessionOK (trace : List SpawnEvent) (e : SpawnEvent) : Bool :=
  match e.sessionPassed with
  | none => true
  | some s => producedCwd trace s == some e.cwd

/-- The invariant of spec §8.5 over a whole trace. -/
def sessionCwdOK (trace : List SpawnEvent) : Bool :=
  trace.all (spawnSessionOK trace)

/-! ## Concrete fixtures for the run-level theorems -/

/-- A fresh work-mode task (`chat_mode = false`) with one pending user
message, a single project `/r`, and no prior session, worktree or
interactions. -/
def demoState : ExecState := {
  status := .PENDING, chatMode := false, totalTokensUsed := 0, processPid := none,
  claudeSessionId := none, worktreePath := none, currentProjectPath := "",
  branchName := none, rootFolder := some "/r", projects := ["/r"],
  errorMessage := none, summary := none,
  queue := [⟨0, "write hello", 0, "pending", none⟩], interactions := [],
  spawnCounter := 0, trace := [] }

/-- A benign environment: every path exists, no stops, planning answers
`NEEDS_WRITE: NO / WRITE_TARGETS: NONE`, each spawn reports 10 output tokens,
no ending criteria, and the auto-responder always wants to continue with the
continuation prompt "please continue the task". -/
def demoEnv : ExecEnv := {
  maxIterations := 5, maxTokens := none, criteria := none,
  pathExists := fun _ => true, stopRequested := fun _ => false,
  planningResponse := fun _ => "```planning\nNEEDS_WRITE: NO\nWRITE_TARGETS: NONE\n```",
  execResponse := fun i => "Done " ++ toString i,
  execRaises := fun _ => none, tokensOf := fun _ => 10,
  criteriaMet := fun _ => false, criteriaReason := fun _ => "",
  shouldContinue := fun _ _ => true,
  generateResponse := fun _ _ => "please continue the task",
  ensureWorktree := fun _ => "/wt",
  initialResponse := "Acknowledged.", testGenResponse := "test code",
  allTestsPassed := true, extractSummary := fun r => r, now := fun _ => 100 }

/-- demoEnv with a 15-token cap: the cap is first exceeded at the top of
iteration 2 (initial context + planning + execution already used 30). -/
def envTokensCapped : ExecEnv := { demoEnv with maxTokens := some 15 }

/-- demoEnv where the execution subprocess fails with a non-recoverable
error at every iteration. -/
def envExecFails : ExecEnv := { demoEnv with execRaises := fun _ => some "boom" }

/-- demoEnv where planning requests write access to project 1 (so the run
creates worktree `/wt` and switches into it) and the responder stops after
one turn. -/
def envWorktreeRun : ExecEnv := { demoEnv with
  planningResponse := fun _ => "```planning\nNEEDS_WRITE: YES\nWRITE_TARGETS: 1\n```",
  shouldContinue := fun _ _ => false }

/-! ## C1 -/

/-- **C1** (code bug).  Work mode, auto-responder decides to continue: the
generated continuation is recorded as a SIMULATED_HUMAN interaction, but the
next iteration re-reads `user_message` from the pending queue only (line 229
resets the local to `None`), finds nothing — the sole entry is already
`sent` — and breaks at line 249.  The continuation is never dispatched: the
final trace still has exactly the three spawns of iteration 1 (initial
context, planning, execution), none of whose messages contain the generated
text, and the run ends with the loop broken for lack of input at iteration 2
(status still RUNNING), not with the continuation driving iteration 2. -/
theorem C1_auto_response_never_dispatched :
    (Interaction.mk .SIMULATED_HUMAN "please continue the task")
        ∈ (executeTask demoEnv demoState "/r").interactions
    ∧ (executeTask demoEnv demoState "/r").trace.all
        (fun e => !(containsSub e.message "please continue the task"))
    ∧ (executeTask demoEnv demoState "/r").trace.map (·.phase)
        = [.initialContext, .planning, .execution]
    ∧ (executeTask demoEnv demoState "/r").status = .RUNNING := by
  decide

/-! ## C3 counterexample -/

/-- **C3** is false on the code: when the execution subprocess fails, the
except-handler of lines 426–428 sets FAILED and commits without touching
`process_pid`, which still holds the pid stored by the planning phase
(line 939).  The terminal FAILED task has `process_pid = 1 ≠ null`. -/
theorem C3_failed_task_keeps_pid :
    (executeTask envExecFails demoState "/r").status = .FAILED
    ∧ (executeTask envExecFails demoState "/r").processPid = some 1
    ∧ (executeTask envExecFails demoState "/r").errorMessage
        = some "Error during execution: boom" := by
  decide

/-! ## C4 counterexample -/

/-- **C4** is false on the code for the immediate-interrupt path:
`trigger_immediate_processing` spawns the agent with the stored session id
(produced by the execution spawn in worktree `/wt`) but passes no
`project_path`, so the spawn's working directory is the server process's
directory, not `/wt`.  The session id is not cleared either. -/
theorem C4_immediate_spawn_breaks_invariant :
    sessionCwdOK (executeTask envWorktreeRun demoState "/r").trace = true
    ∧ (executeTask envWorktreeRun demoState "/r").claudeSessionId = some 3
    ∧ producedCwd (executeTask envWorktreeRun demoState "/r").trace 3
        = some (some "/wt")
    ∧ (triggerImmediateProcessing (executeTask envWorktreeRun demoState "/r")
          "hey" 200).trace.getLast?
        = some ⟨.immediate, none, some 3, 4, 4, "hey"⟩
    ∧ sessionCwdOK (triggerImmediateProcessing
          (executeTask envWorktreeRun demoState "/r") "hey" 200).trace = false := by
  decide

/-! ## C5 counterexample -/

/-- **C5** is false on the code as a "no further Agent spawn" guarantee: the
token cap does set EXHAUSTED with a "Max tokens limit reached" message and
break the loop, but line 453 includes EXHAUSTED among the statuses that
trigger the post-loop test phase in work mode, which spawns the agent once
more (test generation) and overwrites the status (TESTING, then COMPLETED
here). -/
theorem C5_exhausted_then_test_spawn :
    (executeTask envTokensCapped demoState "/r").errorMessage
        = some "Max tokens limit reached: 30/15 tokens used"
    ∧ (executeTask envTokensCapped demoState "/r").trace.map (·.phase)
        = [.initialContext, .planning, .execution, .testGeneration]
    ∧ (executeTask envTokensCapped demoState "/r").status = .COMPLETED := by
  decide

/-! ## C2 counterexample -/

/-- Filesystem for the C2 scenario: the base repo `/r`, its `.git`, and the
already-registered worktree directory exist. -/
def fsRepoReuse : FsEnv :=
  ⟨fun p => p == "/r" || p == "/r/.git" || p == "/r/.claude_worktrees/demo"⟩

/-- Git state for the C2 scenario: `/r` is a git repo whose
`git worktree list` contains the target path. -/
def repoReuse : GitRepoEnv :=
  ⟨true, [⟨"/r/.claude_worktrees/demo", "refs/heads/task/demo"⟩],
   some "main", true, true, ""⟩

/-- Task configuration for the C2 scenario. -/
def taskReuse : TaskCfg := ⟨"demo", some "task/demo", some "main", fun _ => none⟩

/-- **C2** is false on the code: with the target path existing AND listed in
`git worktree list`, `create_worktree` returns `(False, path, "Worktree
already exists …")` (line 52) — success is `false`, not `true` — and
`_ensure_worktree_for_target` therefore takes its failure branch (lines
1130–1132) and returns the original repository path `/r`, not the
worktree. -/
theorem C2_reuse_returns_false :
    create_worktree fsRepoReuse repoReuse "/r" "demo" (some "task/demo") (some "main")
      = (false, "/r/.claude_worktrees/demo",
         "Worktree already exists at /r/.claude_worktrees/demo")
    ∧ ensure_worktree_for_target fsRepoReuse (fun _ => repoReuse) taskReuse "/r"
      = "/r" := by
  decide

/-! ## C6 counterexample -/

/-- **C6** is false on the code in its "together with a truncation notice"
part: on a nonzero exit whose stderr carries the chunk-limit signature, the
client returns the accumulated text alone; the truncation notice is only
substituted when nothing was accumulated (line 196–197). -/
theorem C6_partial_output_without_notice :
    finishStreaming "hello" 1
        ("asyncio error: Separator is found, but chunk is longer than limit (64 KiB)")
      = CLIResult.ok "hello"
    ∧ containsSub "hello" "truncat" = false := by
  decide

/-! ## C7 counterexample -/

/-- **C7** is false on the code in its heuristic-target part: with no
```planning``` block and a write verb present, the target is
`task.root_folder or project_path` (line 1006) — here `root_folder` is the
empty (falsy) string, and the target produced is the current project path
`/p`, not `root_folder`. -/
theorem C7_heuristic_target_not_root_folder :
    parsePlanningResponse "Please edit it." [] none (some "") "/p"
      = ⟨true, ["/p"]⟩
    ∧ ("/p" : String) ≠ "" := by
  decide

/-! ## C8 counterexample -/

/-- Two pending entries with identical text. -/
def qTwoPending : List QueueEntry :=
  [⟨0, "x", 0, "pending", none⟩, ⟨1, "x", 5, "pending", none⟩]

/-- **C8** is false on the code in its "exactly the first" part: the loop of
`mark_message_as_sent` has no break, so BOTH pending entries with the
matching text transition to `sent` in one call — the later one is not left
unchanged. -/
theorem C8_marks_all_matching :
    (markMessageAsSent qTwoPending "x" 50).1
      = [⟨0, "x", 0, "sent", some 50⟩, ⟨1, "x", 5, "sent", some 50⟩] := by
  decide

/-! ## C9 counterexample -/

/-- A queue whose only entry is already `sent`, 5 seconds ago. -/
def qSentOnly : List QueueEntry := [⟨0, "x", 100, "sent", some 100⟩]

/-- **C9** is false on the code: the 30-second duplicate window of
`add_user_input` matches entries of ANY status, so enqueuing `x` onto a
queue whose only (recent) entry is a `sent` `x` is rejected and
`peek_pending` still returns nothing — even though no pending entry existed
before the enqueue, where the claimed equivalence requires `x`. -/
theorem C9_blocked_enqueue_not_peeked :
    getNextPendingUserInput qSentOnly = none
    ∧ (addUserInput qSentOnly "x" 105 1).2 = false
    ∧ getNextPendingUserInput (addUserInput qSentOnly "x" 105 1).1 = none := by
  decide

/-! ## C8 amended -/

/-- **C8 amended**: `mark_sent(task_id, text)` transitions EVERY pending
entry whose text matches to `sent` (each with `sent_at = now`) and returns
true iff at least one matched; all other entries are unchanged and the queue
length is preserved.  A second call with the same text is a no-op on the
queue and returns false. -/
theorem C8_amended (q : List QueueEntry) (x : String) (t t2 : Int) :
    ((markMessageAsSent q x t).2 = true ↔ ∃ e ∈ q, e.input = x ∧ e.status = "pending")
    ∧ (markMessageAsSent q x t).1.length = q.length
    ∧ (∀ (i : Nat) (e : QueueEntry), q[i]? = some e →
        (e.input = x ∧ e.status = "pending" →
          (markMessageAsSent q x t).1[i]?
            = some { e with status := "sent", sentAt := some t })
        ∧ (¬(e.input = x ∧ e.status = "pending") →
          (markMessageAsSent q x t).1[i]? = some e))
    ∧ markMessageAsSent (markMessageAsSent q x t).1 x t2
        = ((markMessageAsSent q x t).1, false) := by
  refine ⟨?_, ?_, ?_, ?_⟩
  · unfold markMessageAsSent
    cases hf : q.any (fun e => e.input == x && e.status == "pending") with
    | false =>
        simp only [hf, Bool.false_eq_true, if_false]
        rw [List.any_eq_false] at hf
        simp only [Bool.false_eq_true, false_iff]
        rintro ⟨e, he, h1, h2⟩
        exact hf e he (by simp [h1, h2])
    | true =>
        simp only [hf, if_true, true_iff]
        rw [List.any_eq_true] at hf
        obtain ⟨e, he, hcond⟩ := hf
        simp only [Bool.and_eq_true, beq_iff_eq] at hcond
        exact ⟨e, he, hcond.1, hcond.2⟩
  · unfold markMessageAsSent
    cases hf : q.any (fun e => e.input == x && e.status == "pending") <;> simp
  · intro i e he
    unfold markMessageAsSent
    cases hf : q.any (fun e => e.input == x && e.status == "pending") with
    | false =>
        simp only [hf, Bool.false_eq_true, if_false]
        refine ⟨?_, fun _ => he⟩
        intro hmatch
        rw [List.any_eq_false] at hf
        have hmem : e ∈ q := by
          have := List.getElem?_eq_some_iff.mp he
          obtain ⟨h1, h2⟩ := this
          exact h2 ▸ List.getElem_mem h1
        exact absurd (by simp [hmatch.1, hmatch.2]) (hf e hmem)
    | true =>
        simp only [hf, if_true, List.getElem?_map, he, Option.map_some']
        constructor
        · intro hmatch
          unfold markEntry
          rw [if_pos (by simp [hmatch.1, hmatch.2])]
        · intro hmatch
          unfold markEntry
          rw [if_neg ?hc]
          case hc =>
            simp only [Bool.and_eq_true, beq_iff_eq]
            intro hcc
            exact hmatch hcc
  · unfold markMessageAsSent
    cases hf : q.any (fun e => e.input == x && e.status == "pending") with
    | false => simp only [hf, Bool.false_eq_true, if_false]
    | true =>
        simp only [hf, if_true]
        have hall : (q.map (markEntry x t)).any
            (fun e => e.input == x && e.status == "pending") = false := by
          rw [List.any_eq_false]
          intro e' he'
          rw [List.mem_map] at he'
          obtain ⟨e, _, rfl⟩ := he'
          unfold markEntry
          by_cases hc : (e.input == x && e.status == "pending") = true
          · rw [if_pos hc]; simp
          · rw [if_neg hc]; simpa using hc
        simp only [hall, Bool.false_eq_true, if_false]

/-! ## C9 amended -/

/-- **C9 amended**: after `enqueue(x)`, `peek_pending` returns `x` iff
either the queue already had a first pending entry whose text is `x`, or it
had no pending entry at all AND the enqueue was not rejected by the
30-second duplicate window (which also matches entries already `sent`).  In
particular, with no prior pending entry the enqueue-then-peek round trip
yields `x` only when no entry of any status carries the same text within the
window. -/
theorem C9_amended (q : List QueueEntry) (x : String) (now : Int) (nid : Nat) :
    (getNextPendingUserInput (addUserInput q x now nid).1 = some x)
      ↔ ((∃ e, q.find? (fun e => e.status == "pending") = some e ∧ e.input = x)
          ∨ (q.find? (fun e => e.status == "pending") = none
              ∧ isRecentDuplicate q x now = false)) := by
  unfold addUserInput
  by_cases hd : isRecentDuplicate q x now = true
  · rw [if_pos hd]
    unfold getNextPendingUserInput
    constructor
    · intro h
      cases hfind : q.find? (fun e => e.status == "pending") with
      | none => rw [hfind] at h; simp at h
      | some e =>
          rw [hfind] at h
          simp only [Option.map_some'] at h
          exact Or.inl ⟨e, rfl, by injection h⟩
    · rintro (⟨e, hfind, hx⟩ | ⟨_, hnd⟩)
      · rw [hfind]; simp [hx]
      · rw [hd] at hnd; cases hnd
  · rw [if_neg hd]
    unfold getNextPendingUserInput
    rw [List.find?_append]
    cases hfind : q.find? (fun e => e.status == "pending") with
    | none =>
        constructor
        · intro _
          exact Or.inr ⟨rfl, by simpa using hd⟩
        · intro _
          rfl
    | some e =>
        simp only [Option.or, Option.map_some']
        constructor
        · intro h
          exact Or.inl ⟨e, rfl, by injection h⟩
        · rintro (⟨e2, he2, hx⟩ | ⟨hnone, _⟩)
          · injection he2 with he2
            simp [he2, hx]
          · exact absurd hnone (by simp)

/-! ## C6 amended -/

/-- **C6 amended**: on a nonzero exit whose stderr carries the chunk-limit
signature, `send_message_streaming` returns normally (recoverable) with the
accumulated text — substituting the truncation notice only when nothing was
accumulated; on any other nonzero exit it raises, and the executor's handler
maps a non-chunk-limit exception to FAILED (and a chunk-limit exception to a
logged `continue`). -/
theorem C6_amended (ft : String) (rc : Int) (err msg : String) (st : ExecState)
    (hrc : rc ≠ 0) :
    (containsSub err chunkLimitSig = true →
      ∃ out, finishStreaming ft rc err = CLIResult.ok out
        ∧ (stripStr ft = "" → out = truncationNotice)
        ∧ (stripStr ft ≠ "" → out = stripStr ft))
    ∧ (containsSub err chunkLimitSig = false →
      finishStreaming ft rc err
        = CLIResult.error
            ("Claude CLI error (exit code " ++ toString rc ++ "): " ++ err))
    ∧ (containsSub msg chunkLimitSig = true →
      applyError st msg
        = ({ st with errorMessage := some ("Error during execution: " ++ msg) },
           IterExit.cont))
    ∧ (containsSub msg chunkLimitSig = false →
      applyError st msg
        = ({ st with
              errorMessage := some ("Error during execution: " ++ msg),
              status := TaskStatus.FAILED }, IterExit.brk)) := by
  refine ⟨?_, ?_, ?_, ?_⟩
  · intro hsig
    unfold finishStreaming
    rw [if_pos hrc, if_pos hsig]
    by_cases h0 : stripStr ft = ""
    · exact ⟨truncationNotice, by simp [h0], fun _ => rfl, fun h => absurd h0 h⟩
    · exact ⟨stripStr ft, by simp [h0], fun h => absurd h h0, fun _ => rfl⟩
  · intro hsig
    unfold finishStreaming
    rw [if_pos hrc, if_neg (by simp [hsig])]
  · intro hsig
    unfold applyError
    rw [if_pos hsig]
  · intro hsig
    unfold applyError
    rw [if_neg (by simp [hsig])]

/-! ## C3 amended -/

/-- **C3 amended**: the stop endpoint does clear `process_pid` when it sets
STOPPED, but the executor's own terminal transitions leave `process_pid`
untouched: the non-recoverable-error handler (→ FAILED), the decision phase
(→ FINISHED / PAUSED) and the token-cap branch (→ EXHAUSTED) never write the
field, so a task that reaches FAILED / EXHAUSTED / FINISHED keeps the pid of
the last spawned subprocess (concretely: the failed run below ends FAILED
with `process_pid = 1`, the planning subprocess's pid). -/
theorem C3_amended :
    (∀ st st', stopTask st = some st'
        → st'.status = TaskStatus.STOPPED ∧ st'.processPid = none)
    ∧ (∀ st msg, ((applyError st msg).1).processPid = st.processPid)
    ∧ (∀ env iter st resp,
        ((decisionPhase env iter st resp).1).processPid = st.processPid)
    ∧ (∀ env iter st, env.stopRequested iter = false →
        st.status ≠ TaskStatus.STOPPED → tokenCapReached env st = true →
        (iterBody env iter st).1.processPid = st.processPid
          ∧ (iterBody env iter st).1.status = TaskStatus.EXHAUSTED)
    ∧ ((executeTask envExecFails demoState "/r").status = TaskStatus.FAILED
        ∧ (executeTask envExecFails demoState "/r").processPid = some 1) := by
  refine ⟨?_, ?_, ?_, ?_, by decide⟩
  · intro st st' h
    unfold stopTask at h
    split at h
    · injection h with h
      rw [← h]
      exact ⟨rfl, rfl⟩
    · cases h
  · intro st msg
    unfold applyError
    split <;> rfl
  · intro env iter st resp
    unfold decisionPhase
    by_cases hcm : st.chatMode = true
    · simp only [hcm, if_true, optTruthy, Bool.false_and, Bool.false_eq_true,
        if_false]
      cases hq : getNextPendingUserInput st.queue with
      | some pi => simp [addInteraction]
      | none => simp [hcm]
    · have hcm2 : st.chatMode = false := by simpa using hcm
      simp only [hcm2, Bool.false_eq_true, if_false]
      by_cases hcrit : (optTruthy env.criteria && env.criteriaMet iter) = true
      · rw [if_pos hcrit]
      · rw [if_neg hcrit]
        cases hq : getNextPendingUserInput st.queue with
        | some pi => simp [addInteraction]
        | none =>
            simp only [hcm2, Bool.false_eq_true, if_false]
            by_cases hsc : env.shouldContinue resp iter = true
            · simp [hsc, addInteraction]
            · simp [hsc]
  · intro env iter st h1 h2 h3
    unfold iterBody
    rw [h1]
    simp only [Bool.false_eq_true, if_false, if_neg h2, h3, if_true]
    exact ⟨by simp, by simp⟩

/-! ## Helper: a string contains any of its prefixes -/

theorem containsSub_of_prefix (hay needle : String)
    (h : needle.data <+: hay.data) : containsSub hay needle = true := by
  unfold containsSub
  have hp : needle.data.isPrefixOf hay.data = true := List.isPrefixOf_iff_prefix.mpr h
  cases hd : hay.data with
  | nil =>
      rw [hd] at hp
      have hn : needle.data = [] := by
        cases h2 : needle.data with
        | nil => rfl
        | cons a l => rw [h2] at hp; simp [List.isPrefixOf] at hp
      simp [findSubIdx, hn]
  | cons c rest =>
      rw [hd] at hp
      simp [findSubIdx, hp]

/-! ## C5 amended -/

/-- **C5 amended**: when the configured token cap is nonzero and
`total_tokens_used` has reached it, the top of the iteration sets EXHAUSTED
with an error message mentioning the max-tokens limit and breaks the loop
without any spawn — but the guarantee ends at the loop: in work mode the
post-loop test phase fires on EXHAUSTED too, spawning the agent once more
(test generation) and moving the status off EXHAUSTED. -/
theorem C5_amended (env : ExecEnv) (iter iterN : Nat) (st st2 : ExecState)
    (m : Nat) (hstop : env.stopRequested iter = false)
    (hst : st.status ≠ TaskStatus.STOPPED) (hm : env.maxTokens = some m)
    (hm0 : m ≠ 0) (hge : m ≤ st.totalTokensUsed) :
    ((iterBody env iter st).2 = IterExit.brk
      ∧ (iterBody env iter st).1.status = TaskStatus.EXHAUSTED
      ∧ (iterBody env iter st).1.trace = st.trace
      ∧ containsSub (((iterBody env iter st).1.errorMessage).getD "")
          "Max tokens limit reached" = true)
    ∧ (st2.status = TaskStatus.EXHAUSTED → st2.chatMode = false →
        env.pathExists st2.currentProjectPath = true →
        (∃ e, (postLoop env st2 iterN).trace = st2.trace ++ [e]
            ∧ e.phase = SpawnPhase.testGeneration)
          ∧ (postLoop env st2 iterN).status ≠ TaskStatus.EXHAUSTED) := by
  constructor
  · have hcap : tokenCapReached env st = true := by
      unfold tokenCapReached
      rw [hm]
      simp [hm0, hge]
    unfold iterBody
    rw [hstop]
    simp only [Bool.false_eq_true, if_false, if_neg hst, hcap, if_true]
    refine ⟨by simp, by simp, by simp, ?_⟩
    simp only [Option.getD_some]
    apply containsSub_of_prefix
    have h1 : ("Max tokens limit reached".data)
        <+: ("Max tokens limit reached: ".data) := by decide
    exact h1.trans (List.prefix_append _ _)
  · intro h2 hchat hpe
    have hgen : ∀ st3 : ExecState, st3.currentProjectPath = st2.currentProjectPath →
        st3.trace = st2.trace →
        (∃ e, (generateAndRunTests env st3 st3.currentProjectPath).trace
              = st2.trace ++ [e] ∧ e.phase = SpawnPhase.testGeneration)
          ∧ (generateAndRunTests env st3 st3.currentProjectPath).status
              ≠ TaskStatus.EXHAUSTED := by
      intro st3 h3p h3t
      simp only [generateAndRunTests, h3p, hpe, if_true, recordSpawn]
      cases env.allTestsPassed with
      | true =>
          exact ⟨⟨⟨SpawnPhase.testGeneration, some st2.currentProjectPath,
              st3.claudeSessionId, st3.spawnCounter, st3.spawnCounter,
              "[test generation prompt]"⟩,
            by simp [adoptSpawn, addInteraction, h3t], rfl⟩, by simp⟩
      | false =>
          exact ⟨⟨⟨SpawnPhase.testGeneration, some st2.currentProjectPath,
              st3.claudeSessionId, st3.spawnCounter, st3.spawnCounter,
              "[test generation prompt]"⟩,
            by simp [adoptSpawn, addInteraction, h3t], rfl⟩, by simp⟩
    simp only [postLoop]
    split
    · rename_i hcond
      rw [h2] at hcond
      simp at hcond
    · split
      · rename_i hcond
        rw [hchat] at hcond
        simp at hcond
      · split
        · split
          · split
            · exact hgen _ rfl rfl
            · exact hgen _ rfl rfl
          · rename_i hcond
            split at hcond
            · simp [h2, hchat] at hcond
            · simp [h2, hchat] at hcond
        · split
          · exact hgen _ rfl rfl
          · rename_i hcond
            simp [h2, hchat] at hcond

/-! ## C2 amended -/

/-- **C2 amended**: when the target worktree path already exists and is
listed in `git worktree list`, `create_worktree` returns `ok = false`
together with the existing path and a "Worktree already exists" message; and
whenever the creation call reports failure for a git write target,
`_ensure_worktree_for_target` falls back to the original repository path —
so a repeated create for the same task makes the executor run in the base
repository, not in the existing worktree. -/
theorem C2_amended (fs : FsEnv) (repo : GitRepoEnv) (repoOf : String → GitRepoEnv)
    (task : TaskCfg) (base taskName : String) (bn bb : Option String)
    (writeTarget : String)
    (hgit : repo.isGitRepo = true)
    (hex : fs.pathExists (worktreeTarget base taskName) = true)
    (hlist : repo.worktrees.any
        (fun wt => wt.path == worktreeTarget base taskName) = true) :
    create_worktree fs repo base taskName bn bb
      = (false, worktreeTarget base taskName,
         "Worktree already exists at " ++ worktreeTarget base taskName)
    ∧ (writeTarget ≠ "" → fs.pathExists writeTarget = true →
       ¬ task.projectTypeOf writeTarget = some "idl" →
       fs.pathExists (writeTarget ++ "/.git") = true →
       (create_worktree fs (repoOf writeTarget) writeTarget task.taskName
          (some (pyOr task.branchName ("task/" ++ task.taskName)))
          (some (pyOr task.baseBranch "main"))).1 = false →
       ensure_worktree_for_target fs repoOf task writeTarget = writeTarget) := by
  constructor
  · simp [create_worktree, hgit, hex, hlist]
  · intro h1 h2 h3 h4 h5
    simp [ensure_worktree_for_target, h1, h2, h3, h4, h5]

/-- Witness for `C2_amended` at the concrete reuse scenario. -/
theorem C2_amended_witness :
    create_worktree fsRepoReuse repoReuse "/r" "demo" (some "task/demo") (some "main")
      = (false, worktreeTarget "/r" "demo",
         "Worktree already exists at " ++ worktreeTarget "/r" "demo")
    ∧ ensure_worktree_for_target fsRepoReuse (fun _ => repoReuse) taskReuse "/r"
      = "/r" :=
  And.intro
    (C2_amended fsRepoReuse repoReuse (fun _ => repoReuse) taskReuse "/r" "demo"
      (some "task/demo") (some "main") "/r" (by decide) (by decide) (by decide)).1
    ((C2_amended fsRepoReuse repoReuse (fun _ => repoReuse) taskReuse "/r" "demo"
      (some "task/demo") (some "main") "/r" (by decide) (by decide) (by decide)).2
      (by decide) (by decide) (by decide) (by decide) (by decide))

/-! ## Witnesses for the theorems with hypotheses -/

/-- Witness for `C6_amended`: empty accumulation under the chunk-limit
signature yields the truncation notice; an ordinary error maps to FAILED. -/
theorem C6_amended_witness :
    finishStreaming "" 1 chunkLimitSig = CLIResult.ok truncationNotice
    ∧ applyError demoState "boom"
      = ({ demoState with
            errorMessage := some "Error during execution: boom",
            status := TaskStatus.FAILED }, IterExit.brk) := by
  have h := C6_amended "" 1 chunkLimitSig "boom" demoState (by decide)
  refine ⟨?_, h.2.2.2 (by decide)⟩
  obtain ⟨out, ho, hn, _⟩ := h.1 (by decide)
  rw [ho, hn (by decide)]

/-- Witness for `C3_amended`: the token-capped iteration leaves
`process_pid` unchanged while setting EXHAUSTED. -/
theorem C3_amended_witness :
    (iterBody envTokensCapped 2 { demoState with totalTokensUsed := 30 }).1.processPid
        = ({ demoState with totalTokensUsed := 30 } : ExecState).processPid
    ∧ (iterBody envTokensCapped 2 { demoState with totalTokensUsed := 30 }).1.status
        = TaskStatus.EXHAUSTED :=
  C3_amended.2.2.2.1 envTokensCapped 2 { demoState with totalTokensUsed := 30 }
    (by decide) (by decide) (by decide)

/-- Witness for `C5_amended` at the token-capped scenario. -/
theorem C5_amended_witness :
    (iterBody envTokensCapped 2 { demoState with totalTokensUsed := 30 }).2
        = IterExit.brk
    ∧ (postLoop envTokensCapped { demoState with status := TaskStatus.EXHAUSTED } 3).status
        ≠ TaskStatus.EXHAUSTED := by
  have h := C5_amended envTokensCapped 2 3 { demoState with totalTokensUsed := 30 }
      { demoState with status := TaskStatus.EXHAUSTED } 15 (by decide) (by decide)
      rfl (by decide) (by decide)
  exact ⟨h.1.1, (h.2 rfl rfl (by decide)).2⟩

/-- Witness for `C8_amended` at the two-pending-duplicates queue. -/
theorem C8_amended_witness :
    (markMessageAsSent qTwoPending "x" 50).2 = true
    ∧ (markMessageAsSent qTwoPending "x" 50).1[0]?
        = some ⟨0, "x", 0, "sent", some 50⟩ := by
  have h := C8_amended qTwoPending "x" 50 60
  refine ⟨h.1.mpr ⟨⟨0, "x", 0, "pending", none⟩, by decide, rfl, rfl⟩, ?_⟩
  exact (h.2.2.1 0 ⟨0, "x", 0, "pending", none⟩ (by decide)).1 ⟨rfl, rfl⟩

/-! ## C7 helper lemmas -/

theorem upperChar_of_isDigit (c : Char) (h : c.isDigit = true) : upperChar c = c := by
  simp only [Char.isDigit, Bool.and_eq_true, decide_eq_true_eq] at h
  unfold upperChar
  rw [if_neg]
  rintro ⟨h3, -⟩
  have h2 : c.val.toNat ≤ 57 := h.2
  unfold Char.toNat at h3
  omega

theorem noDigit_of_upper_mem_CURRENT (c : Char)
    (hmem : upperChar c ∈ "CURRENT".data) : c.isDigit = false := by
  by_cases h : c.isDigit = true
  · rw [upperChar_of_isDigit c h] at hmem
    simp only [Char.isDigit, Bool.and_eq_true, decide_eq_true_eq] at h
    fin_cases hmem <;> exact absurd h (by decide)
  · simpa using h

theorem digitRunsAux_nil_of_noDigits (l : List Char)
    (h : ∀ c ∈ l, c.isDigit = false) : digitRunsAux l [] = [] := by
  induction l with
  | nil => rfl
  | cons c t ih =>
      unfold digitRunsAux
      rw [h c (List.mem_cons_self _ _)]
      simp only [Bool.false_eq_true, if_false]
      rw [if_pos trivial]
      exact ih (fun c2 hc2 => h c2 (List.mem_cons_of_mem _ hc2))

theorem digitRuns_CURRENT_nil (tc : List Char)
    (h : String.mk (upperList tc) = "CURRENT") : digitRunsAux tc [] = [] := by
  apply digitRunsAux_nil_of_noDigits
  intro c hc
  have hupper : upperList tc = "CURRENT".data := congrArg String.data h
  exact noDigit_of_upper_mem_CURRENT c (by
    rw [← hupper]; exact List.mem_map_of_mem _ hc)

theorem foldl_collectStep_filter (projects : List String) (nums : List Nat)
    (acc : List String × List Nat) :
    nums.foldl (collectStep projects) acc
      = (nums.filter
          (fun n => decide (1 ≤ n) && decide (n ≤ projects.length))).foldl
          (collectStep projects) acc := by
  induction nums generalizing acc with
  | nil => rfl
  | cons n t ih =>
      simp only [List.foldl_cons, List.filter_cons]
      by_cases h : 1 ≤ n ∧ n ≤ projects.length
      · rw [if_pos (by simp [h.1, h.2])]
        simp only [List.foldl_cons]
        exact ih _
      · rw [if_neg (by simpa using h),
          show collectStep projects acc n = acc from by simp [collectStep, h]]
        exact ih _

theorem mem_foldl_collectStep (projects : List String) (nums : List Nat)
    (acc : List String × List Nat) (p : String)
    (hp : p ∈ (nums.foldl (collectStep projects) acc).1) :
    p ∈ acc.1 ∨ ∃ n ∈ nums, 1 ≤ n ∧ n ≤ projects.length
        ∧ p = projects.getD (n - 1) "" := by
  induction nums generalizing acc with
  | nil => exact Or.inl hp
  | cons n t ih =>
      simp only [List.foldl_cons] at hp
      rcases ih _ hp with h | ⟨n2, hn2, h1, h2, h3⟩
      · simp only [collectStep] at h
        split at h
        · rename_i hcond
          split at h
          · rcases List.mem_append.mp h with h | h
            · exact Or.inl h
            · rw [List.mem_singleton] at h
              exact Or.inr ⟨n, List.mem_cons_self _ _, hcond.1, hcond.2, h⟩
          · exact Or.inl h
        · exact Or.inl h
      · exact Or.inr ⟨n2, List.mem_cons_of_mem _ hn2, h1, h2, h3⟩

theorem mem_acc_foldl_collectStep (projects : List String) (nums : List Nat)
    (acc : List String × List Nat) (p : String) (hp : p ∈ acc.1) :
    p ∈ (nums.foldl (collectStep projects) acc).1 := by
  induction nums generalizing acc with
  | nil => exact hp
  | cons n t ih =>
      simp only [List.foldl_cons]
      apply ih
      simp only [collectStep]
      split
      · split
        · exact List.mem_append_left _ hp
        · exact hp
      · exact hp

theorem known_mem_foldl_collectStep (projects : List String) (nums : List Nat)
    (acc : List String × List Nat) (n : Nat) (hn : n ∈ nums) (h1 : 1 ≤ n)
    (h2 : n ≤ projects.length) (h3 : projects.getD (n - 1) "" ≠ "") :
    projects.getD (n - 1) "" ∈ (nums.foldl (collectStep projects) acc).1 := by
  induction nums generalizing acc with
  | nil => cases hn
  | cons m t ih =>
      simp only [List.foldl_cons]
      rcases List.mem_cons.mp hn with rfl | hmem
      · apply mem_acc_foldl_collectStep
        simp only [collectStep]
        rw [if_pos ⟨h1, h2⟩]
        by_cases hc : projects.getD (n - 1) "" ≠ ""
            ∧ ¬ acc.1.contains (projects.getD (n - 1) "")
        · rw [if_pos hc]
          exact List.mem_append_right _ (List.mem_singleton_self _)
        · rw [if_neg hc]
          have hcont : acc.1.contains (projects.getD (n - 1) "") = true := by
            by_contra hcon
            exact hc ⟨h3, by simpa using hcon⟩
          exact List.mem_of_elem_eq_true hcont
      · exact ih _ hmem

/-! ## C7 amended -/

/-- **C7 amended**, the planning-response parse: `WRITE_TARGETS: NONE`
yields no targets; `CURRENT` yields the worktree path when that is set and
no targets otherwise; a number list collects, in order, the paths of the
KNOWN numbers (1-based, unknown numbers ignored with only a warning), each
nonempty path at most once; and with no ```planning``` block, write is
assumed iff one of the verbs {create, edit, modify, update, write, add,
delete, change, implement} occurs in the lowercased response, with
`root_folder` — or, when `root_folder` is unset/empty, the current project
path — as the sole target. -/
theorem C7_amended (response : String) (projects : List String)
    (wt rf : Option String) (pp : String) (b : String) (rest tc : List Char) :
    (extractPlanningBlock response = some b →
      findWriteTargetsRest b.data = some rest →
      captureRestOfLine rest = some tc →
      ((String.mk (upperList tc) = "NONE" →
          (parsePlanningResponse response projects wt rf pp).writeTargets = [])
        ∧ (String.mk (upperList tc) = "CURRENT" → optTruthy wt = true →
            (parsePlanningResponse response projects wt rf pp).writeTargets
              = [wt.getD ""])
        ∧ (String.mk (upperList tc) = "CURRENT" → optTruthy wt = false →
            (parsePlanningResponse response projects wt rf pp).writeTargets = [])
        ∧ (String.mk (upperList tc) ≠ "NONE" →
            ¬(String.mk (upperList tc) = "CURRENT" ∧ optTruthy wt = true) →
            (parsePlanningResponse response projects wt rf pp).writeTargets
              = (collectTargets projects
                  ((digitRunsAux tc []).map natOfDigits)).1)))
    ∧ (∀ nums : List Nat,
        collectTargets projects nums
          = collectTargets projects
              (nums.filter (fun n => decide (1 ≤ n) && decide (n ≤ projects.length))))
    ∧ (∀ (nums : List Nat) (p : String), p ∈ (collectTargets projects nums).1 →
        ∃ n ∈ nums, 1 ≤ n ∧ n ≤ projects.length ∧ p = projects.getD (n - 1) "")
    ∧ (∀ (nums : List Nat) (n : Nat), n ∈ nums → 1 ≤ n → n ≤ projects.length →
        projects.getD (n - 1) "" ≠ "" →
        projects.getD (n - 1) "" ∈ (collectTargets projects nums).1)
    ∧ (extractPlanningBlock response = none →
        ((parsePlanningResponse response projects wt rf pp).needsWrite = true
           ↔ ∃ kw ∈ writeKeywords,
               containsSub (String.mk (lowerList response.data)) kw = true)
        ∧ (parsePlanningResponse response projects wt rf pp).writeTargets
           = (if (parsePlanningResponse response projects wt rf pp).needsWrite
              then [pyOr rf pp] else [])) := by
  refine ⟨?_, ?_, ?_, ?_, ?_⟩
  · intro hb hrest hcap
    have hred : (parsePlanningResponse response projects wt rf pp).writeTargets
        = (if String.mk (upperList tc) = "NONE" then []
           else if String.mk (upperList tc) = "CURRENT" ∧ optTruthy wt = true then
             [wt.getD ""]
           else (collectTargets projects
               ((digitRunsAux tc []).map natOfDigits)).1) := by
      unfold parsePlanningResponse
      simp only [hb, hrest, hcap]
    refine ⟨?_, ?_, ?_, ?_⟩
    · intro hnone
      rw [hred, if_pos hnone]
    · intro hcur htr
      rw [hred, if_neg (by rw [hcur]; decide), if_pos ⟨hcur, htr⟩]
    · intro hcur htr
      rw [hred, if_neg (by rw [hcur]; decide),
        if_neg (fun h => by rw [htr] at h; exact absurd h.2 (by decide)),
        digitRuns_CURRENT_nil tc hcur]
      rfl
    · intro hne hne2
      rw [hred, if_neg hne, if_neg hne2]
  · intro nums
    exact foldl_collectStep_filter projects nums ([], [])
  · intro nums p hp
    rcases mem_foldl_collectStep projects nums ([], []) p hp with h | h
    · cases h
    · exact h
  · intro nums n hn h1 h2 h3
    exact known_mem_foldl_collectStep projects nums ([], []) n hn h1 h2 h3
  · intro hb
    have hnw : (parsePlanningResponse response projects wt rf pp).needsWrite
        = writeKeywords.any
            (fun kw => containsSub (String.mk (lowerList response.data)) kw) := by
      unfold parsePlanningResponse
      simp only [hb]
    have hwt : (parsePlanningResponse response projects wt rf pp).writeTargets
        = (if writeKeywords.any
              (fun kw => containsSub (String.mk (lowerList response.data)) kw) then
            [pyOr rf pp] else []) := by
      unfold parsePlanningResponse
      simp only [hb]
    constructor
    · rw [hnw]
      exact List.any_eq_true
    · rw [hwt, hnw]

/-- Witness for `C7_amended` at the `WRITE_TARGETS: NONE` response. -/
theorem C7_amended_witness :
    (parsePlanningResponse "```planning\nNEEDS_WRITE: NO\nWRITE_TARGETS: NONE\n```"
        ["/a"] none (some "/r") "/p").writeTargets = [] :=
  ((C7_amended "```planning\nNEEDS_WRITE: NO\nWRITE_TARGETS: NONE\n```" ["/a"]
      none (some "/r") "/p" "NEEDS_WRITE: NO\nWRITE_TARGETS: NONE"
      " NONE".data "NONE".data).1
    (by decide) (by decide) (by decide)).1 (by decide)

/-! ## C10 helper lemmas: dict and fold behaviour -/

theorem lookup_none_of_any_false (d : List (String × String)) (k : String)
    (h : d.any (fun p => p.1 == k) = false) : d.lookup k = none := by
  induction d with
  | nil => rfl
  | cons x t ih =>
      simp only [List.any_cons, Bool.or_eq_false_iff] at h
      simp only [List.lookup]
      have : (k == x.1) = false := by
        have := h.1
        rw [beq_eq_false_iff_ne] at this ⊢
        exact fun he => this he.symm
      rw [this]
      exact ih h.2

theorem lookup_append_right (d e : List (String × String)) (k : String)
    (h : d.lookup k = none) : (d ++ e).lookup k = e.lookup k := by
  induction d with
  | nil => rfl
  | cons x t ih =>
      simp only [List.lookup, List.cons_append] at h ⊢
      cases hk : (k == x.1) with
      | true => rw [hk] at h; cases h
      | false => rw [hk] at h; exact ih h

theorem lookup_map_replace_self (d : List (String × String)) (k v : String)
    (h : d.any (fun p => p.1 == k) = true) :
    (d.map (fun p => if p.1 == k then (k, v) else p)).lookup k = some v := by
  induction d with
  | nil => cases h
  | cons x t ih =>
      simp only [List.any_cons, Bool.or_eq_true] at h
      rw [List.map_cons]
      by_cases hk : (x.1 == k) = true
      · rw [if_pos hk]
        simp [List.lookup]
      · rw [if_neg hk]
        simp only [List.lookup]
        have hkk : (k == x.1) = false := by
          rw [beq_eq_false_iff_ne]
          intro he
          exact hk (by simp [he.symm])
        rw [hkk]
        exact ih (h.resolve_left hk)

theorem lookup_map_replace_other (d : List (String × String)) (k v k2 : String)
    (hne : k2 ≠ k) :
    (d.map (fun p => if p.1 == k then (k, v) else p)).lookup k2 = d.lookup k2 := by
  induction d with
  | nil => rfl
  | cons x t ih =>
      rw [List.map_cons]
      by_cases hk : (x.1 == k) = true
      · rw [if_pos hk]
        have h1 : (k2 == k) = false := by rwa [beq_eq_false_iff_ne]
        have h2 : (k2 == x.1) = false := by
          rw [beq_eq_false_iff_ne]
          intro he
          exact hne (he.trans (by simpa using hk))
        simp only [List.lookup, h1, h2]
        exact ih
      · rw [if_neg hk]
        simp only [List.lookup]
        cases hkx : (k2 == x.1) with
        | true => rfl
        | false => exact ih

theorem lookup_append_singleton_other (d : List (String × String)) (k v k2 : String)
    (hne : k2 ≠ k) : (d ++ [(k, v)]).lookup k2 = d.lookup k2 := by
  induction d with
  | nil =>
      simp only [List.nil_append, List.lookup]
      rw [show (k2 == k) = false by rwa [beq_eq_false_iff_ne]]
  | cons x t ih =>
      simp only [List.cons_append, List.lookup]
      cases hkx : (k2 == x.1) with
      | true => rfl
      | false => exact ih

theorem lookup_dictInsert_self (d : List (String × String)) (k v : String) :
    (dictInsert d k v).lookup k = some v := by
  unfold dictInsert
  by_cases h : d.any (fun p => p.1 == k) = true
  · rw [if_pos h]
    exact lookup_map_replace_self d k v h
  · rw [if_neg h]
    rw [lookup_append_right d _ k
      (lookup_none_of_any_false d k (Bool.eq_false_iff.mpr h))]
    simp [List.lookup]

theorem lookup_dictInsert_other (d : List (String × String)) (k v k2 : String)
    (hne : k2 ≠ k) : (dictInsert d k v).lookup k2 = d.lookup k2 := by
  unfold dictInsert
  by_cases h : d.any (fun p => p.1 == k) = true
  · rw [if_pos h]
    exact lookup_map_replace_other d k v k2 hne
  · rw [if_neg h]
    exact lookup_append_singleton_other d k v k2 hne

theorem multiStep_ok_mono (fs : FsEnv) (repoOf : String → GitRepoEnv)
    (taskName : String) (baseBranch : Option String)
    (acc : Bool × List (String × String)) (proj : ProjectCfg)
    (h : (multiStep fs repoOf taskName baseBranch acc proj).1 = true) :
    acc.1 = true := by
  simp only [multiStep] at h
  repeat' split at h
  all_goals simp_all

theorem foldl_multiStep_ok_false (fs : FsEnv) (repoOf : String → GitRepoEnv)
    (taskName : String) (baseBranch : Option String) (l : List ProjectCfg)
    (acc : Bool × List (String × String)) (h : acc.1 = false) :
    (l.foldl (multiStep fs repoOf taskName baseBranch) acc).1 = false := by
  induction l generalizing acc with
  | nil => exact h
  | cons q t ih =>
      simp only [List.foldl_cons]
      apply ih
      cases hq : (multiStep fs repoOf taskName baseBranch acc q).1 with
      | false => rfl
      | true =>
          rw [multiStep_ok_mono fs repoOf taskName baseBranch acc q hq] at h
          cases h

theorem multiStep_fail (fs : FsEnv) (repoOf : String → GitRepoEnv)
    (taskName : String) (baseBranch : Option String)
    (acc : Bool × List (String × String)) (p : ProjectCfg)
    (hpath : p.path ≠ "") (hidl : p.projectType ≠ "idl")
    (hgit : (repoOf p.path).isGitRepo = true)
    (hfail : (create_worktree fs (repoOf p.path) p.path taskName
        (some (if optTruthy p.branchName = true then p.branchName.getD ""
               else "task/" ++ sanitizeTaskName taskName))
        (match p.baseBranch with | some b => some b | none => baseBranch)).1
        = false) :
    multiStep fs repoOf taskName baseBranch acc p
      = (false, dictInsert acc.2 p.path p.path) := by
  simp only [multiStep, hpath, hidl, hgit, Bool.not_true, Bool.false_eq_true,
    if_false, hfail]

theorem lookup_foldl_multiStep_other (fs : FsEnv) (repoOf : String → GitRepoEnv)
    (taskName : String) (baseBranch : Option String) (l : List ProjectCfg)
    (acc : Bool × List (String × String)) (key : String)
    (hkey : ∀ q ∈ l, q.path ≠ key) :
    ((l.foldl (multiStep fs repoOf taskName baseBranch) acc).2).lookup key
      = acc.2.lookup key := by
  induction l generalizing acc with
  | nil => rfl
  | cons q t ih =>
      simp only [List.foldl_cons]
      rw [ih _ (fun q2 h2 => hkey q2 (List.mem_cons_of_mem _ h2))]
      have hq := hkey q (List.mem_cons_self _ _)
      simp only [multiStep]
      repeat' split
      all_goals
        first
          | rfl
          | exact lookup_dictInsert_other _ _ _ _ (fun h => hq h.symm)

theorem lookup_readFold_keep (l : List ProjectCfg) (d : List (String × String))
    (key : String) (hd : d.lookup key = some key) :
    (l.foldl (fun d2 q => if q.path = "" then d2 else dictInsert d2 q.path q.path)
        d).lookup key = some key := by
  induction l generalizing d with
  | nil => exact hd
  | cons q t ih =>
      simp only [List.foldl_cons]
      apply ih
      by_cases hq : q.path = ""
      · rw [if_pos hq]
        exact hd
      · rw [if_neg hq]
        by_cases hk : q.path = key
        · rw [hk, lookup_dictInsert_self]
      -- wait: dictInsert d key key lookup key = some key
        · rw [lookup_dictInsert_other _ _ _ _ (fun h => hk h.symm)]
          exact hd

/-! ## C10 -/

/-- **C10** (confirmed).  For a write-access git project of type ≠ `idl`
whose worktree creation fails, `create_multi_project_worktrees` reports
overall `ok = false` but still maps that project to its own original
repository path in the returned dict (lines 198–202), and
`_ensure_worktree_for_target` likewise returns the original repository path
when creation fails — execution proceeds in the main repository without
worktree isolation.  (The write-access projects are assumed to have
pairwise-distinct paths, as a later duplicate entry would overwrite the
dict slot.) -/
theorem C10_failure_falls_back_to_original (fs : FsEnv)
    (repoOf : String → GitRepoEnv) (task : TaskCfg) (taskName : String)
    (projects : List ProjectCfg) (baseBranch : Option String) (p : ProjectCfg)
    (writeTarget : String)
    (hmem : p ∈ projects) (hw : p.access = "write") (hidl : p.projectType ≠ "idl")
    (hpath : p.path ≠ "") (hgit : (repoOf p.path).isGitRepo = true)
    (hfail : (create_worktree fs (repoOf p.path) p.path taskName
        (some (if optTruthy p.branchName = true then p.branchName.getD ""
               else "task/" ++ sanitizeTaskName taskName))
        (match p.baseBranch with | some b => some b | none => baseBranch)).1
        = false)
    (hnodup : ((projects.filter (fun q => q.access == "write")).map (·.path)).Nodup)
    (hwt : writeTarget ≠ "") (hpe : fs.pathExists writeTarget = true)
    (hidl2 : ¬ task.projectTypeOf writeTarget = some "idl")
    (hgd : fs.pathExists (writeTarget ++ "/.git") = true)
    (hfail2 : (create_worktree fs (repoOf writeTarget) writeTarget task.taskName
        (some (pyOr task.branchName ("task/" ++ task.taskName)))
        (some (pyOr task.baseBranch "main"))).1 = false) :
    (create_multi_project_worktrees fs repoOf taskName projects baseBranch).1 = false
    ∧ ((create_multi_project_worktrees fs repoOf taskName projects baseBranch).2).lookup
        p.path = some p.path
    ∧ ensure_worktree_for_target fs repoOf task writeTarget = writeTarget := by
  have hpw : p ∈ projects.filter (fun q => q.access == "write") :=
    List.mem_filter.mpr ⟨hmem, by simp [hw]⟩
  obtain ⟨l1, l2, hsplit⟩ := List.append_of_mem hpw
  have hne : projects.filter (fun q => q.access == "write") ≠ [] := by
    rw [hsplit]
    simp
  have hl2 : ∀ q ∈ l2, q.path ≠ p.path := by
    intro q hq heq
    rw [hsplit] at hnodup
    simp only [List.map_append, List.map_cons] at hnodup
    have h2 := (List.nodup_append.mp hnodup).2.1
    have h3 := (List.nodup_cons.mp h2).1
    exact h3 (heq ▸ List.mem_map_of_mem (·.path) hq)
  have hcore : ((projects.filter (fun q => q.access == "write")).foldl
        (multiStep fs repoOf taskName baseBranch) (true, [])).1 = false
      ∧ (((projects.filter (fun q => q.access == "write")).foldl
        (multiStep fs repoOf taskName baseBranch) (true, [])).2).lookup p.path
        = some p.path := by
    rw [hsplit]
    rw [List.foldl_append, List.foldl_cons]
    rw [multiStep_fail fs repoOf taskName baseBranch _ p hpath hidl hgit hfail]
    constructor
    · exact foldl_multiStep_ok_false fs repoOf taskName baseBranch l2 _ rfl
    · rw [lookup_foldl_multiStep_other fs repoOf taskName baseBranch l2 _ _ hl2]
      exact lookup_dictInsert_self _ _ _
  refine ⟨?_, ?_, ?_⟩
  · simp only [create_multi_project_worktrees]
    rw [if_neg hne]
    exact hcore.1
  · simp only [create_multi_project_worktrees]
    rw [if_neg hne]
    exact lookup_readFold_keep _ _ _ hcore.2
  · simp [ensure_worktree_for_target, hwt, hpe, hidl2, hgd, hfail2]

/-- Filesystem for the failing-creation scenario: only the base repo `/a`
and its `.git` exist. -/
def fsGitOnly : FsEnv := ⟨fun p => p == "/a" || p == "/a/.git"⟩

/-- Git state in which both `git worktree add` forms fail. -/
def repoAddFails : GitRepoEnv := ⟨true, [], some "main", false, false, "boom"⟩

/-- A single write-access project at `/a`. -/
def projWriteA : ProjectCfg := ⟨"/a", "write", "other", none, none⟩

/-- Task configuration for the failing-creation scenario. -/
def taskPlain : TaskCfg := ⟨"demo", none, none, fun _ => none⟩

/-- Witness for `C10_failure_falls_back_to_original` at the concrete
failing-creation scenario. -/
theorem C10_failure_falls_back_witness :
    (create_multi_project_worktrees fsGitOnly (fun _ => repoAddFails) "demo"
        [projWriteA] none).1 = false
    ∧ ((create_multi_project_worktrees fsGitOnly (fun _ => repoAddFails) "demo"
        [projWriteA] none).2).lookup "/a" = some "/a"
    ∧ ensure_worktree_for_target fsGitOnly (fun _ => repoAddFails) taskPlain "/a"
        = "/a" :=
  C10_failure_falls_back_to_original fsGitOnly (fun _ => repoAddFails) taskPlain
    "demo" [projWriteA] none projWriteA "/a" (by decide) (by decide) (by decide)
    (by decide) (by decide) (by decide) (by decide) (by decide) (by decide)
    (by decide) (by decide) (by decide)

/-! ## C4: the session/cwd invariant for executor-made spawns

The executor maintains the invariant because (a) every spawn passes the
task's stored session id and runs in the current project path, (b) the
stored session id is always the one produced by the latest adopted spawn,
which ran in the current project path, and (c) the only place the current
path changes (worktree adoption) clears the session id first.  `LoopInv`
packages this as an inductive invariant on the executor state. -/

structure LoopInv (st : ExecState) : Prop where
  wf : ∀ e ∈ st.trace, e.sessionProduced < st.spawnCounter
  ok : ∀ e ∈ st.trace, spawnSessionOK st.trace e = true
  sess : ∀ S, st.claudeSessionId = some S →
    S < st.spawnCounter ∧ producedCwd st.trace S = some (some st.currentProjectPath)
  wt : optTruthy st.worktreePath = true → st.worktreePath = some st.currentProjectPath

theorem producedCwd_append_of_some (trace l2 : List SpawnEvent) (S : Nat)
    (c : Option String) (h : producedCwd trace S = some c) :
    producedCwd (trace ++ l2) S = some c := by
  unfold producedCwd at h ⊢
  rw [List.find?_append]
  cases hf : trace.find? (fun e2 => e2.sessionProduced == S) with
  | none => rw [hf] at h; cases h
  | some e2 =>
      rw [hf] at h
      simp only [Option.or_some]
      exact h

theorem producedCwd_append_fresh (trace : List SpawnEvent) (e : SpawnEvent)
    (hwf : ∀ e2 ∈ trace, e2.sessionProduced < e.sessionProduced) :
    producedCwd (trace ++ [e]) e.sessionProduced = some e.cwd := by
  unfold producedCwd
  rw [List.find?_append]
  have hnone : trace.find? (fun e2 => e2.sessionProduced == e.sessionProduced)
      = none := by
    rw [List.find?_eq_none]
    intro e2 he2
    simp only [beq_iff_eq]
    exact Nat.ne_of_lt (hwf e2 he2)
  rw [hnone]
  simp [List.find?]

theorem spawnSessionOK_append (trace l2 : List SpawnEvent) (e : SpawnEvent)
    (h : spawnSessionOK trace e = true) :
    spawnSessionOK (trace ++ l2) e = true := by
  unfold spawnSessionOK at h ⊢
  cases hp : e.sessionPassed with
  | none => rfl
  | some S =>
      rw [hp] at h
      rw [beq_iff_eq] at h
      show (producedCwd (trace ++ l2) S == some e.cwd) = true
      rw [producedCwd_append_of_some trace l2 S e.cwd h]
      simp

/-- Invariance under state updates that keep the five relevant fields. -/
theorem loopInv_congr (st st2 : ExecState) (h : LoopInv st)
    (ht : st2.trace = st.trace) (hc : st2.spawnCounter = st.spawnCounter)
    (hs : st2.claudeSessionId = st.claudeSessionId)
    (hw : st2.worktreePath = st.worktreePath)
    (hp : st2.currentProjectPath = st.currentProjectPath) : LoopInv st2 := by
  refine ⟨?_, ?_, ?_, ?_⟩
  · rw [ht, hc]; exact h.wf
  · rw [ht]; exact h.ok
  · rw [hs, hc, ht, hp]; exact h.sess
  · rw [hw, hp]; exact h.wt

theorem loopInv_recordSpawn_adopt (st : ExecState) (phase : SpawnPhase)
    (msg : String) (h : LoopInv st) :
    LoopInv (adoptSpawn (recordSpawn st phase (some st.currentProjectPath) msg).1
        (recordSpawn st phase (some st.currentProjectPath) msg).2) := by
  simp only [recordSpawn, adoptSpawn]
  refine ⟨?_, ?_, ?_, ?_⟩
  · intro e he
    rcases List.mem_append.mp he with he | he
    · exact Nat.lt_succ_of_lt (h.wf e he)
    · rw [List.mem_singleton] at he
      rw [he]
      exact Nat.lt_succ_self _
  · intro e he
    rcases List.mem_append.mp he with he | he
    · exact spawnSessionOK_append _ _ _ (h.ok e he)
    · rw [List.mem_singleton] at he
      subst he
      cases hp : st.claudeSessionId with
      | none => rfl
      | some S =>
          have hsess := (h.sess S hp).2
          show (producedCwd (st.trace ++
              [⟨phase, some st.currentProjectPath, some S, st.spawnCounter,
                st.spawnCounter, msg⟩]) S
            == some (some st.currentProjectPath)) = true
          rw [producedCwd_append_of_some _ _ _ _ hsess]
          simp
  · intro S hS
    injection hS with hS
    rw [← hS]
    refine ⟨Nat.lt_succ_self _, ?_⟩
    exact producedCwd_append_fresh st.trace _ (fun e2 he2 => h.wf e2 he2)
  · exact h.wt

theorem loopInv_recordSpawn_noadopt (st : ExecState) (phase : SpawnPhase)
    (msg : String) (h : LoopInv st) :
    LoopInv (recordSpawn st phase (some st.currentProjectPath) msg).1 := by
  simp only [recordSpawn]
  refine ⟨?_, ?_, ?_, ?_⟩
  · intro e he
    rcases List.mem_append.mp he with he | he
    · exact Nat.lt_succ_of_lt (h.wf e he)
    · rw [List.mem_singleton] at he
      rw [he]
      exact Nat.lt_succ_self _
  · intro e he
    rcases List.mem_append.mp he with he | he
    · exact spawnSessionOK_append _ _ _ (h.ok e he)
    · rw [List.mem_singleton] at he
      subst he
      cases hp : st.claudeSessionId with
      | none => rfl
      | some S =>
          have hsess := (h.sess S hp).2
          show (producedCwd (st.trace ++
              [⟨phase, some st.currentProjectPath, some S, st.spawnCounter,
                st.spawnCounter, msg⟩]) S
            == some (some st.currentProjectPath)) = true
          rw [producedCwd_append_of_some _ _ _ _ hsess]
          simp
  · intro S hS
    obtain ⟨hlt, hpc⟩ := h.sess S hS
    exact ⟨Nat.lt_succ_of_lt hlt, producedCwd_append_of_some _ _ _ _ hpc⟩
  · exact h.wt

/-- Restated adopt lemma for a spawn cwd that is only propositionally the
current project path. -/
theorem loopInv_recordSpawn_adopt2 (st : ExecState) (phase : SpawnPhase)
    (c : String) (msg : String) (hc : c = st.currentProjectPath) (h : LoopInv st) :
    LoopInv (adoptSpawn (recordSpawn st phase (some c) msg).1
        (recordSpawn st phase (some c) msg).2) := by
  subst hc
  exact loopInv_recordSpawn_adopt st phase msg h

/-- Restated no-adopt lemma for a spawn cwd that is only propositionally the
current project path. -/
theorem loopInv_recordSpawn_noadopt2 (st : ExecState) (phase : SpawnPhase)
    (c : String) (msg : String) (hc : c = st.currentProjectPath) (h : LoopInv st) :
    LoopInv (recordSpawn st phase (some c) msg).1 := by
  subst hc
  exact loopInv_recordSpawn_noadopt st phase msg h

/-- Logging an interaction touches none of the invariant-relevant fields. -/
theorem loopInv_addInteraction (st : ExecState) (k : InteractionType)
    (c : String) (h : LoopInv st) : LoopInv (addInteraction st k c) :=
  loopInv_congr _ _ h rfl rfl rfl rfl rfl

/-- A fresh task state — no session, no trace, no worktree — satisfies the
invariant. -/
theorem loopInv_init (st : ExecState) (h1 : st.claudeSessionId = none)
    (h2 : st.trace = []) (h3 : st.worktreePath = none) : LoopInv st := by
  refine ⟨?_, ?_, ?_, ?_⟩
  · intro e he; rw [h2] at he; simp at he
  · intro e he; rw [h2] at he; simp at he
  · intro S hS; rw [h1] at hS; exact Option.noConfusion hS
  · intro hw; rw [h3] at hw; exact absurd hw (by decide)

/-- Under the invariant, the execution path `worktree_path or
current_project_path` of line 565 is exactly the current project path. -/
theorem executionPath_eq (st : ExecState) (h : LoopInv st) :
    pyOr st.worktreePath st.currentProjectPath = st.currentProjectPath := by
  cases hw : st.worktreePath with
  | none => rfl
  | some w =>
      by_cases he : w = ""
      · show (if w = "" then st.currentProjectPath else w) = st.currentProjectPath
        rw [if_pos he]
      · show (if w = "" then st.currentProjectPath else w) = st.currentProjectPath
        rw [if_neg he]
        have h2 := h.wt (by rw [hw]; simp [optTruthy, he])
        rw [hw] at h2
        injection h2 with h2

/-- The worktree-adoption step of lines 277–283 re-establishes the invariant:
the new primary path becomes the current path, and the session id is
cleared. -/
theorem loopInv_switch (st : ExecState) (head : String) (h : LoopInv st) :
    LoopInv { st with worktreePath := some head, currentProjectPath := head,
                      claudeSessionId := none } := by
  refine ⟨h.wf, h.ok, ?_, ?_⟩
  · intro S hS; exact absurd hS (by simp)
  · intro _; rfl

/-- `_send_initial_context` preserves the invariant when invoked on the
current project path (its only two call sites, lines 208 and 283). -/
theorem loopInv_sendInitialContext (env : ExecEnv) (st : ExecState)
    (projectPath : String) (hp : projectPath = st.currentProjectPath)
    (h : LoopInv st) : LoopInv (sendInitialContext env st projectPath) := by
  subst hp
  have h1 : LoopInv (addInteraction st .SYSTEM_MESSAGE "[initial context]") :=
    loopInv_addInteraction st _ _ h
  simp only [sendInitialContext]
  split
  · exact loopInv_congr _ _
      (loopInv_addInteraction _ .CLAUDE_RESPONSE env.initialResponse
        (loopInv_recordSpawn_adopt2 _ .initialContext _ "[initial context]" rfl h1))
      rfl rfl rfl rfl rfl
  · exact h1

/-- The planning phase spawns in the current project path with the stored
session id, so the invariant is preserved. -/
theorem loopInv_planningPhase (env : ExecEnv) (iteration : Nat) (st : ExecState)
    (h : LoopInv st) : LoopInv (planningPhase env iteration st).1 := by
  have h1 : LoopInv (addInteraction st .SYSTEM_MESSAGE "[planning prompt]") :=
    loopInv_addInteraction st _ _ h
  simp only [planningPhase]
  split
  · exact loopInv_congr _ _
      (loopInv_addInteraction _ .CLAUDE_RESPONSE (env.planningResponse iteration)
        (loopInv_recordSpawn_adopt2 _ .planning _ "[planning prompt]" rfl h1))
      rfl rfl rfl rfl rfl
  · exact h1

/-- The worktree phase preserves the invariant: if it switches the current
path to a fresh worktree it clears the session id first (lines 277–283) and
re-sends the initial context in the new path. -/
theorem loopInv_worktreePhase (env : ExecEnv) (st : ExecState)
    (plan : PlanningResult) (m : String) (h : LoopInv st) :
    LoopInv (worktreePhase env st plan m).1 := by
  simp only [worktreePhase]
  repeat' split
  all_goals first
    | exact loopInv_addInteraction _ _ _
        (loopInv_sendInitialContext env _ _ rfl (loopInv_switch st _ h))
    | exact loopInv_sendInitialContext env _ _ rfl (loopInv_switch st _ h)
    | exact loopInv_addInteraction _ _ _ h
    | exact h

/-- The decision phase only touches queue, interactions, status and summary,
never the session, trace or path fields. -/
theorem loopInv_decisionPhase (env : ExecEnv) (iteration : Nat) (st : ExecState)
    (r : String) (h : LoopInv st) : LoopInv (decisionPhase env iteration st r).1 := by
  simp only [decisionPhase]
  repeat' split
  all_goals exact loopInv_congr _ _ h rfl rfl rfl rfl rfl

/-- The except-handler only sets `error_message` and possibly `status`. -/
theorem loopInv_applyError (st : ExecState) (msg : String) (h : LoopInv st) :
    LoopInv (applyError st msg).1 := by
  simp only [applyError]
  split
  all_goals exact loopInv_congr _ _ h rfl rfl rfl rfl rfl

/-- One loop iteration preserves the invariant: the execution spawn runs in
`worktree_path or current_project_path`, which under the invariant is the
current project path — the cwd of the spawn that produced the stored session
id. -/
theorem loopInv_iterBody (env : ExecEnv) (iteration : Nat) (st : ExecState)
    (h : LoopInv st) : LoopInv (iterBody env iteration st).1 := by
  cases hstop : env.stopRequested iteration with
  | true =>
      simp only [iterBody, hstop]
      exact loopInv_congr _ _ h rfl rfl rfl rfl rfl
  | false =>
      simp only [iterBody, hstop]
      rw [if_neg (show ¬(false = true) by decide)]
      split
      · exact h
      · split
        · exact loopInv_congr _ _ h rfl rfl rfl rfl rfl
        · split
          · exact h
          · rename_i um heq
            generalize hA : addInteraction
                { st with queue := (markMessageAsSent st.queue um (env.now iteration)).1 }
                InteractionType.USER_REQUEST um = A
            have hsti : LoopInv A := by
              rw [← hA]
              exact loopInv_congr _ _ h rfl rfl rfl rfl rfl
            have hstp := loopInv_planningPhase env iteration A hsti
            have hstw := loopInv_worktreePhase env (planningPhase env iteration A).1
              (planningPhase env iteration A).2 um hstp
            have hrun : LoopInv { (worktreePhase env (planningPhase env iteration A).1
                (planningPhase env iteration A).2 um).1 with
                  status := TaskStatus.RUNNING } :=
              loopInv_congr _ _ hstw rfl rfl rfl rfl rfl
            split
            · exact loopInv_applyError _ _ hrun
            · split
              · exact loopInv_applyError _ _
                  (loopInv_recordSpawn_noadopt2 _ .execution _ _
                    (executionPath_eq _ hstw) hrun)
              · exact loopInv_decisionPhase env iteration _ _
                  (loopInv_congr _ _
                    (loopInv_addInteraction _ .CLAUDE_RESPONSE
                      (env.execResponse iteration)
                      (loopInv_recordSpawn_adopt2
                        { (worktreePhase env (planningPhase env iteration A).1
                            (planningPhase env iteration A).2 um).1 with
                          status := TaskStatus.RUNNING }
                        .execution _ _ (executionPath_eq _ hrun) hrun))
                    rfl rfl rfl rfl rfl)

/-- The whole loop preserves the invariant, by induction on the fuel. -/
theorem loopInv_execLoop (env : ExecEnv) (fuel iteration : Nat) (st : ExecState)
    (h : LoopInv st) : LoopInv (execLoop env fuel iteration st).1 := by
  revert h
  induction fuel generalizing iteration st with
  | zero => intro h; exact h
  | succ fuel ih =>
      intro h
      simp only [execLoop]
      split
      · split
        · rename_i st2 heq
          have h2 := loopInv_iterBody env (iteration + 1) st h
          rw [heq] at h2
          exact h2
        · rename_i st2 heq
          have h2 := loopInv_iterBody env (iteration + 1) st h
          rw [heq] at h2
          exact ih (iteration + 1) st2 h2
      · exact h

/-- The post-loop test phase spawns in the current project path (line 454
passes `task.current_project_path`), so it preserves the invariant. -/
theorem loopInv_generateAndRunTests (env : ExecEnv) (st : ExecState) (p : String)
    (hp : p = st.currentProjectPath) (h : LoopInv st) :
    LoopInv (generateAndRunTests env st p) := by
  subst hp
  have h1 : LoopInv { st with status := TaskStatus.TESTING } :=
    loopInv_congr _ _ h rfl rfl rfl rfl rfl
  simp only [generateAndRunTests]
  repeat' split
  all_goals first
    | exact loopInv_congr _ _
        (loopInv_addInteraction _ .CLAUDE_RESPONSE env.testGenResponse
          (loopInv_recordSpawn_adopt2 _ .testGeneration _ "[test generation prompt]"
            rfl h1))
        rfl rfl rfl rfl rfl
    | exact loopInv_congr _ _ h1 rfl rfl rfl rfl rfl

/-- Post-loop processing preserves the invariant. -/
theorem loopInv_postLoop (env : ExecEnv) (st : ExecState) (iteration : Nat)
    (h : LoopInv st) : LoopInv (postLoop env st iteration) := by
  simp only [postLoop]
  repeat' split
  all_goals first
    | exact loopInv_generateAndRunTests env _ _ rfl
        (loopInv_congr _ _ h rfl rfl rfl rfl rfl)
    | exact loopInv_generateAndRunTests env _ _ rfl h
    | exact loopInv_congr _ _ h rfl rfl rfl rfl rfl

/-- A full `_execute_with_claude` run from a fresh state satisfies the
invariant at exit. -/
theorem loopInv_executeWithClaude (env : ExecEnv) (st0 : ExecState) (p : String)
    (h1 : st0.claudeSessionId = none) (h2 : st0.trace = [])
    (h3 : st0.worktreePath = none) :
    LoopInv (executeWithClaude env st0 p) := by
  have hbase : LoopInv { st0 with worktreePath := none, currentProjectPath := p } :=
    loopInv_init _ h1 h2 rfl
  simp only [executeWithClaude, h3]
  split
  · exact loopInv_postLoop env _ _
      (loopInv_execLoop env env.maxIterations 0 _
        (loopInv_sendInitialContext env _ p rfl hbase))
  · exact loopInv_postLoop env _ _
      (loopInv_execLoop env env.maxIterations 0 _ hbase)

/-- **C4** (amended).  Restricted to the executor's own spawns the claim
holds: a full `execute_task` run started from a fresh task — no stored
session id, no recorded spawns, no worktree — produces a spawn trace in
which every spawn that passed a session id ran in the working directory of
the spawn that produced that id (every Claude invocation resuming session S
runs in the cwd in which S was created; worktree adoption clears the session
id before the path changes).  The immediate-interrupt path of
`trigger_immediate_processing` is exempted: it passes the stored session id
with no working directory, breaking the invariant (see the counterexample
theorem). -/
theorem C4_amended (env : ExecEnv) (st0 : ExecState) (p : String)
    (h1 : st0.claudeSessionId = none) (h2 : st0.trace = [])
    (h3 : st0.worktreePath = none) :
    sessionCwdOK (executeTask env st0 p).trace = true := by
  have h := loopInv_executeWithClaude env { st0 with status := TaskStatus.RUNNING }
    p h1 h2 h3
  unfold executeTask sessionCwdOK
  exact List.all_eq_true.mpr (fun e he => h.ok e he)

/-- The amended C4 at the concrete fixture: a fresh task run by the benign
environment yields a trace satisfying the session/cwd invariant. -/
theorem C4_amended_witness :
    demoState.claudeSessionId = none ∧ demoState.trace = []
    ∧ demoState.worktreePath = none
    ∧ sessionCwdOK (executeTask demoEnv demoState "/r").trace = true :=
  ⟨rfl, rfl, rfl, C4_amended demoEnv demoState "/r" rfl rfl rfl⟩

end TaskAutomation
